import Mathlib

/-!
Verification development for the `albertbf` static-site build pipeline
(`src/build.js`).  The JavaScript source is shallowly embedded here:

* strings are Lean `String`s and most scanning functions work on the
  underlying `List Char`;
* JavaScript `Date` objects are modelled as milliseconds since the Unix
  epoch (an `Int`), with calendar conversions done in UTC (the build runs
  on a UTC CI machine and frontmatter dates denote UTC midnights);
* the regular expressions of the source are embedded as explicit
  backtracking scanners with the same greedy/lazy behaviour;
* external libraries (`marked`, `highlight.js`, `js-yaml`) are either
  passed in as explicit function parameters (for the Markdown renderer
  and highlighter, whose output the claims treat as opaque) or modelled
  from their documented behaviour on the inputs this repository uses
  (for the small YAML subset appearing in frontmatter);
* filesystem effects are made explicit: the build produces a list of
  written files (path, bytes) plus a list of image copy operations
  (source path, destination path), and fatal errors are `Except.error`.
-/

namespace Albertbf

/-! ## Character classes and basic string helpers -/

/-- JavaScript regular-expression `\s` on the ASCII range (space, tab,
newline, carriage return, vertical tab, form feed).  Frontmatter and
article bodies in this repository only use these whitespace characters. -/
def jsWs (c : Char) : Bool :=
  c = ' ' || c = '\t' || c = '\n' || c = '\r' || c = '\x0b' || c = '\x0c'

/-- JavaScript regular-expression `\w` (ASCII word character). -/
def wordChar (c : Char) : Bool :=
  ('a' ≤ c && c ≤ 'z') || ('A' ≤ c && c ≤ 'Z') || ('0' ≤ c && c ≤ '9') || c = '_'

/-- JavaScript `str.split(/\s+/).filter(Boolean).length`: the number of
maximal runs of non-whitespace characters. -/
def wordCount (s : String) : Nat :=
  ((s.data.splitOnP jsWs).filter (· ≠ [])).length

/-- One step of `escapeHtml` from `src/build.js`: the five chained
`replace` calls (`&`, `<`, `>`, `"`, `'`) are, for single-character
patterns applied in this order, a simultaneous character map. -/
def escapeHtmlChar (c : Char) : List Char :=
  if c = '&' then "&amp;".data
  else if c = '<' then "&lt;".data
  else if c = '>' then "&gt;".data
  else if c = '"' then "&quot;".data
  else if c = '\'' then "&#39;".data
  else [c]

/-- `escapeHtml` from `src/build.js` (applied to the string payload). -/
def escapeHtml (s : String) : String :=
  ⟨s.data.flatMap escapeHtmlChar⟩

/-- The `escapeAttr` helper of `generateIndexHTML`
(`str ? str.replace(/"/g, '&quot;') : ''`, and the empty string is falsy,
so this is a plain quote replacement). -/
def escapeAttr (s : String) : String :=
  ⟨s.data.flatMap (fun c => if c = '"' then "&quot;".data else [c])⟩

/-- JavaScript `String#toLowerCase` on the ASCII content this repository
uses. -/
def toLowerJs (s : String) : String :=
  ⟨s.data.map Char.toLower⟩

/-- Split a character list at every occurrence of the separator
(`String#split` with a single-character separator; the separators are
dropped and empty pieces are kept). -/
def splitOnChar (sep : Char) (l : List Char) : List (List Char) :=
  l.foldr
    (fun c acc =>
      match acc with
      | cur :: rest => if c = sep then [] :: cur :: rest else (c :: cur) :: rest
      | [] => [[c]])
    [[]]

/-- String-level wrapper for `splitOnChar`. -/
def jsSplit (sep : Char) (s : String) : List String :=
  (splitOnChar sep s.data).map fun l => ⟨l⟩

/-- Substring test, `true` iff `pat` occurs contiguously in `l`. -/
def substrB (pat : List Char) (l : List Char) : Bool :=
  pat.isPrefixOf l ||
    match l with
    | [] => false
    | _ :: cs => substrB pat cs

/-- String-level wrapper for `substrB`. -/
def containsStr (pat s : String) : Bool :=
  substrB pat.data s.data

/-! ## JavaScript dates (UTC model)

A JS `Date` is its millisecond timestamp.  Calendar conversions use the
standard civil-calendar algorithms over `Int` with floor division. -/

/-- Days since 1970-01-01 of the civil date `(y, m, d)`. -/
def daysFromCivil (y m d : Int) : Int :=
  let y' := if m ≤ 2 then y - 1 else y
  let era := (if 0 ≤ y' then y' else y' - 399).fdiv 400
  let yoe := y' - era * 400
  let mp := (m + 9).emod 12
  let doy := (153 * mp + 2).fdiv 5 + d - 1
  let doe := yoe * 365 + yoe.fdiv 4 - yoe.fdiv 100 + doy
  era * 146097 + doe - 719468

/-- Civil date `(y, m, d)` of a number of days since 1970-01-01. -/
def civilFromDays (z0 : Int) : Int × Int × Int :=
  let z := z0 + 719468
  let era := (if 0 ≤ z then z else z - 146096).fdiv 146097
  let doe := z - era * 146097
  let yoe := (doe - doe.fdiv 1460 + doe.fdiv 36524 - doe.fdiv 146096).fdiv 365
  let y := yoe + era * 400
  let doy := doe - (365 * yoe + yoe.fdiv 4 - yoe.fdiv 100)
  let mp := (5 * doy + 2).fdiv 153
  let d := doy - (153 * mp + 2).fdiv 5 + 1
  let m := if mp < 10 then mp + 3 else mp - 9
  (if m ≤ 2 then y + 1 else y, m, d)

/-- A JavaScript `Date`, as milliseconds since the Unix epoch. -/
structure JSDate where
  ms : Int
deriving DecidableEq, Repr

/-- The number of milliseconds in a day. -/
def msPerDay : Int := 86400000

/-- `new Date(y, m - 1, d)` at midnight (UTC model). -/
def dateFromYMD (y m d : Int) : JSDate :=
  ⟨daysFromCivil y m d * msPerDay⟩

/-- Day number (since the epoch) containing a date; this is the date
truncated to the start of its calendar day, `setHours(0,0,0,0)`. -/
def JSDate.dayNumber (t : JSDate) : Int :=
  t.ms.fdiv msPerDay

/-- `Date#getFullYear` (UTC model). -/
def JSDate.getFullYear (t : JSDate) : Int :=
  (civilFromDays t.dayNumber).1

/-- `Date#getMonth` (0-based month, UTC model). -/
def JSDate.getMonth (t : JSDate) : Int :=
  (civilFromDays t.dayNumber).2.1 - 1

/-- `Date#getDate` (day of month, UTC model). -/
def JSDate.getDate (t : JSDate) : Int :=
  (civilFromDays t.dayNumber).2.2

/-- Decimal digits of a nonnegative integer, padded to `w` places
(`String#padStart(w, '0')` on the decimal representation). -/
def padNum (w : Nat) (n : Int) : String :=
  let s := toString n.toNat
  ⟨List.replicate (w - s.length) '0' ++ s.data⟩

/-- `Date#toISOString`: `YYYY-MM-DDTHH:MM:SS.sssZ` (UTC). -/
def JSDate.toISOString (t : JSDate) : String :=
  let days := t.dayNumber
  let rem := t.ms - days * msPerDay
  let c := civilFromDays days
  padNum 4 c.1 ++ "-" ++ padNum 2 c.2.1 ++ "-" ++ padNum 2 c.2.2 ++ "T" ++
    padNum 2 (rem.fdiv 3600000) ++ ":" ++ padNum 2 ((rem.fdiv 60000).emod 60) ++ ":" ++
    padNum 2 ((rem.fdiv 1000).emod 60) ++ "." ++ padNum 3 (rem.emod 1000) ++ "Z"

/-- `formatDateEuro` from `src/build.js`: `DD-MM-YYYY`, zero padded. -/
def formatDateEuro (t : JSDate) : String :=
  padNum 2 t.getDate ++ "-" ++ padNum 2 (t.getMonth + 1) ++ "-" ++ toString t.getFullYear.toNat

/-! ## Node `path` model (`join`, `dirname`, `basename`) -/

/-- Normalise a segment list the way `path.normalize` does for the paths
this build produces: drop empty and `.` segments, resolve `..` against a
preceding segment. -/
def normSegs : List String → List String
  | [] => []
  | s :: rest =>
    let r := normSegs rest
    if s = "" || s = "." then r
    else s :: r

/-- Resolve `..` segments (applied after `normSegs`; processes the list
front to back with a stack). -/
def resolveDots (segs : List String) : List String :=
  (segs.foldl
    (fun acc s =>
      if s = ".." then
        match acc with
        | [] => [".."]
        | ".." :: _ => s :: acc
        | _ :: t => t
      else s :: acc) []).reverse

/-- Node `path.join`: concatenate the parts with `/` and normalise; a
leading `/` on the first part is preserved. -/
def pathJoin (parts : List String) : String :=
  let raw := String.intercalate "/" parts
  let abs := raw.data.head? = some '/'
  let segs := resolveDots (normSegs (jsSplit '/' raw))
  let body := String.intercalate "/" segs
  if abs then "/" ++ body else if body = "" then "." else body

/-- Node `path.dirname`. -/
def dirname (p : String) : String :=
  let segs := (jsSplit '/' p).filter (· ≠ "")
  let abs := p.data.head? = some '/'
  match segs with
  | [] => if abs then "/" else "."
  | [_] => if abs then "/" else "."
  | _ =>
    let body := String.intercalate "/" (segs.dropLast)
    if abs then "/" ++ body else body

/-- Node `path.basename` (no extension argument). -/
def basename (p : String) : String :=
  match ((jsSplit '/' p).filter (· ≠ "")).getLast? with
  | some s => s
  | none => ""

/-- Node `path.basename(p, ext)`: the base name with a trailing `ext`
removed when it is a proper suffix. -/
def basenameExt (p ext : String) : String :=
  let b := basename p
  if b ≠ ext && ext.data.isSuffixOf b.data then
    ⟨b.data.take (b.data.length - ext.data.length)⟩
  else b

/-! ## The frontmatter regular expression

`parseMarkdownFile` matches `/^---\s*\n(.*?)\n---\s*\n(.*)/s` against the
file text.  The embedding reproduces the backtracking behaviour: the two
`\s*` are greedy (longest first), `(.*?)` is lazy (shortest first), and
with the `s` flag `.` also matches newlines, so group 2 is simply the
remainder. -/

/-- Remainders of `l` after consuming `\s*\n` at its head, in the order a
backtracking engine tries them (greedy: longest `\s*` first). -/
def wsNlCands (l : List Char) : List (List Char) :=
  (List.range (l.length + 1)).reverse.filterMap fun k =>
    if (l.take k).all jsWs ∧ l[k]? = some '\n' then some (l.drop (k + 1)) else none

/-- Scan for the closing `\n---\s*\n` of the frontmatter block, lazily
(first possible position), returning the metadata text (group 1 so far)
and the remaining body (group 2). -/
def findClose : List Char → Option (List Char × List Char)
  | [] => none
  | c :: cs =>
    if c = '\n' ∧ "---".data.isPrefixOf cs then
      match (wsNlCands (cs.drop 3)).head? with
      | some b => some ([], b)
      | none => (findClose cs).map fun p => (c :: p.1, p.2)
    else (findClose cs).map fun p => (c :: p.1, p.2)

/-- `content.match(/^---\s*\n(.*?)\n---\s*\n(.*)/s)`: `none` when the
regular expression does not match, otherwise the two capture groups
(frontmatter text, Markdown body). -/
def matchFrontmatter (s : String) : Option (String × String) :=
  let l := s.data
  if "---".data.isPrefixOf l then
    ((wsNlCands (l.drop 3)).findSome? findClose).map fun p => (⟨p.1⟩, ⟨p.2⟩)
  else none

/-! ## Markdown image references

`parseMarkdownFile` collects relative image targets with
`/!\[.*?\]\((?!https?:\/\/)(.*?)\)/g`; `generateIndexHTML` and
`generateSearchIndex` delete image syntax with `/!\[.*?\]\(.*?\)/g`.
Without the `s` flag, `.` does not match newlines. -/

/-- Does `l` begin with `http://` or `https://` (the regular expression
`https?:\/\/`)? -/
def httpPrefix (l : List Char) : Bool :=
  "http://".data.isPrefixOf l || "https://".data.isPrefixOf l

/-- Lazy `.*?\)` inside the image target: shortest non-newline run up to a
closing parenthesis, returning (captured target, rest). -/
def grabToParen : List Char → Option (List Char × List Char)
  | [] => none
  | c :: cs =>
    if c = ')' then some ([], cs)
    else if c = '\n' then none
    else (grabToParen cs).map fun p => (c :: p.1, p.2)

/-- After `![`, scan lazily for `](`, apply the optional negative
lookahead `(?!https?:\/\/)`, then grab the target up to `)`.  Failure of
the lookahead or of `grabToParen` expands the lazy alt-text run, exactly
as the backtracking engine does. -/
def imgTail (lookahead : Bool) : List Char → Option (List Char × List Char)
  | [] => none
  | c :: cs =>
    if c = '\n' then none
    else
      (if c = ']' then
        match cs with
        | pc :: u =>
          if pc = '(' ∧ ¬(lookahead ∧ httpPrefix u) then
            match grabToParen u with
            | some p => some p
            | none => imgTail lookahead cs
          else imgTail lookahead cs
        | [] => none
      else imgTail lookahead cs)

/-- Worker for `collectImages` (fuel decreases on every step; the scan
advances at least one character per step, so `fuel = length` suffices). -/
def collectImagesGo : Nat → List Char → List String
  | 0, _ => []
  | _ + 1, [] => []
  | fuel + 1, c :: cs =>
    match c, cs with
    | '!', lb :: r =>
      if lb = '[' then
        match imgTail true r with
        | some (cap, rest) => (⟨cap⟩ : String) :: collectImagesGo fuel rest
        | none => collectImagesGo fuel cs
      else collectImagesGo fuel cs
    | _, _ => collectImagesGo fuel cs

/-- The image-collection loop of `parseMarkdownFile`: all captures of
`/!\[.*?\]\((?!https?:\/\/)(.*?)\)/g` over the body, in document order. -/
def collectImages (s : String) : List String :=
  collectImagesGo s.data.length s.data

/-- Worker for `stripImageSyntax`. -/
def stripImageSyntaxGo : Nat → List Char → List Char
  | 0, l => l
  | _ + 1, [] => []
  | fuel + 1, c :: cs =>
    match c, cs with
    | '!', lb :: r =>
      if lb = '[' then
        match imgTail false r with
        | some (_, rest) => stripImageSyntaxGo fuel rest
        | none => c :: stripImageSyntaxGo fuel cs
      else c :: stripImageSyntaxGo fuel cs
    | _, _ => c :: stripImageSyntaxGo fuel cs

/-- `.replace(/!\[.*?\]\(.*?\)/g, '')`. -/
def stripImageSyntax (l : List Char) : List Char :=
  stripImageSyntaxGo l.length l

/-- The backtick character (escaped so that the character does not appear
verbatim in this file). -/
def backtick : Char := '\x60'

/-- Find the closing triple backtick of a fenced block (lazy `[\s\S]*?`),
returning the remainder after it. -/
def findFenceEnd : List Char → Option (List Char)
  | [] => none
  | c :: cs =>
    if c = backtick ∧ (cs.take 2).all (· = backtick) ∧ cs.length ≥ 2 then some (cs.drop 2)
    else findFenceEnd cs

/-- Worker for `stripCodeFences`. -/
def stripCodeFencesGo : Nat → List Char → List Char
  | 0, l => l
  | _ + 1, [] => []
  | fuel + 1, c :: cs =>
    if c = backtick ∧ (cs.take 2).all (· = backtick) ∧ cs.length ≥ 2 then
      match findFenceEnd (cs.drop 2) with
      | some rest => stripCodeFencesGo fuel rest
      | none => c :: stripCodeFencesGo fuel cs
    else c :: stripCodeFencesGo fuel cs

/-- `.replace(/```[\s\S]*?```/g, '')`. -/
def stripCodeFences (l : List Char) : List Char :=
  stripCodeFencesGo l.length l

/-- Find the first `>` (the `[^>]*>` tail of an HTML tag), returning the
remainder after it. -/
def findTagEnd : List Char → Option (List Char)
  | [] => none
  | c :: cs => if c = '>' then some cs else findTagEnd cs

/-- Worker for `stripHtmlTags`. -/
def stripHtmlTagsGo : Nat → List Char → List Char
  | 0, l => l
  | _ + 1, [] => []
  | fuel + 1, c :: cs =>
    if c = '<' then
      match findTagEnd cs with
      | some rest => stripHtmlTagsGo fuel rest
      | none => c :: stripHtmlTagsGo fuel cs
    else c :: stripHtmlTagsGo fuel cs

/-- `.replace(/<[^>]*>/g, '')`. -/
def stripHtmlTags (l : List Char) : List Char :=
  stripHtmlTagsGo l.length l

/-- Find the closing backtick of inline code (`[^`]*` cannot cross a
backtick, so the first one closes), returning the remainder. -/
def findBacktick : List Char → Option (List Char)
  | [] => none
  | c :: cs => if c = backtick then some cs else findBacktick cs

/-- Worker for `stripInlineCode`. -/
def stripInlineCodeGo : Nat → List Char → List Char
  | 0, l => l
  | _ + 1, [] => []
  | fuel + 1, c :: cs =>
    if c = backtick then
      match findBacktick cs with
      | some rest => stripInlineCodeGo fuel rest
      | none => c :: stripInlineCodeGo fuel cs
    else c :: stripInlineCodeGo fuel cs

/-- The inline-code removal of `generateIndexHTML`. -/
def stripInlineCode (l : List Char) : List Char :=
  stripInlineCodeGo l.length l

/-- Worker for `stripHeadings`: at `#`, the greedy `#{1,6}` can only
succeed by taking the whole run of hashes (1–6 of them) with whitespace
immediately after, and `\s+` then greedily eats the whitespace run. -/
def stripHeadingsGo : Nat → List Char → List Char
  | 0, l => l
  | _ + 1, [] => []
  | fuel + 1, c :: cs =>
    if c = '#' then
      let hs := (c :: cs).takeWhile (· = '#')
      let rest := (c :: cs).drop hs.length
      if hs.length ≤ 6 ∧ (rest.head?.map jsWs).getD false then
        stripHeadingsGo fuel (rest.dropWhile jsWs)
      else c :: stripHeadingsGo fuel cs
    else c :: stripHeadingsGo fuel cs

/-- `.replace(/#{1,6}\s+/g, '')`. -/
def stripHeadings (l : List Char) : List Char :=
  stripHeadingsGo l.length l

/-- Worker for `stripBold`: `\*\*([^*]+)\*\*` keeps the emphasised text. -/
def stripBoldGo : Nat → List Char → List Char
  | 0, l => l
  | _ + 1, [] => []
  | fuel + 1, c :: cs =>
    match c, cs with
    | '*', s2 :: r =>
      if s2 = '*' then
        let run := r.takeWhile (· ≠ '*')
        let rest := r.drop run.length
        if run ≠ [] ∧ rest.take 2 = ['*', '*'] then
          run ++ stripBoldGo fuel (rest.drop 2)
        else c :: stripBoldGo fuel cs
      else c :: stripBoldGo fuel cs
    | _, _ => c :: stripBoldGo fuel cs

/-- `.replace(/\*\*([^*]+)\*\*/g, '$1')`. -/
def stripBold (l : List Char) : List Char :=
  stripBoldGo l.length l

/-- Worker for `stripItalic`: `\*([^*]+)\*` keeps the emphasised text. -/
def stripItalicGo : Nat → List Char → List Char
  | 0, l => l
  | _ + 1, [] => []
  | fuel + 1, c :: cs =>
    if c = '*' then
      let run := cs.takeWhile (· ≠ '*')
      let rest := cs.drop run.length
      if run ≠ [] ∧ rest.take 1 = ['*'] then
        run ++ stripItalicGo fuel (rest.drop 1)
      else c :: stripItalicGo fuel cs
    else c :: stripItalicGo fuel cs

/-- `.replace(/\*([^*]+)\*/g, '$1')`. -/
def stripItalic (l : List Char) : List Char :=
  stripItalicGo l.length l

/-- Worker for `stripLinks`: `\[([^\]]+)\]\(([^)]+)\)` keeps the link
text. -/
def stripLinksGo : Nat → List Char → List Char
  | 0, l => l
  | _ + 1, [] => []
  | fuel + 1, c :: cs =>
    if c = '[' then
      let txt := cs.takeWhile (· ≠ ']')
      let rest := cs.drop txt.length
      match txt, rest with
      | _ :: _, ']' :: po :: r2 =>
        if po = '(' then
          let tgt := r2.takeWhile (· ≠ ')')
          let rest2 := r2.drop tgt.length
          if tgt ≠ [] ∧ rest2.take 1 = [')'] then
            txt ++ stripLinksGo fuel (rest2.drop 1)
          else c :: stripLinksGo fuel cs
        else c :: stripLinksGo fuel cs
      | _, _ => c :: stripLinksGo fuel cs
    else c :: stripLinksGo fuel cs

/-- `.replace(/\[([^\]]+)\]\([^)]+\)/g, '$1')`. -/
def stripLinks (l : List Char) : List Char :=
  stripLinksGo l.length l

/-- `.replace(/[>\-\*\+]/g, '')`: delete every `>`, `-`, `*`, `+`. -/
def stripBullets (l : List Char) : List Char :=
  l.filter fun c => ¬(c = '>' ∨ c = '-' ∨ c = '*' ∨ c = '+')

/-- `.replace(/\n+/g, ' ')`: each run of newlines becomes one space.  The
flag records whether the previous character was a newline. -/
def collapseNlGo : Bool → List Char → List Char
  | _, [] => []
  | prev, c :: cs =>
    if c = '\n' then
      if prev then collapseNlGo true cs else ' ' :: collapseNlGo true cs
    else c :: collapseNlGo false cs

/-- `.replace(/\n+/g, ' ')`. -/
def collapseNl (l : List Char) : List Char :=
  collapseNlGo false l

/-- `.replace(/\s+/g, ' ')`: each whitespace run becomes one space. -/
def collapseWsGo : Bool → List Char → List Char
  | _, [] => []
  | prev, c :: cs =>
    if jsWs c then
      if prev then collapseWsGo true cs else ' ' :: collapseWsGo true cs
    else c :: collapseWsGo false cs

/-- `.replace(/\s+/g, ' ')`. -/
def collapseWs (l : List Char) : List Char :=
  collapseWsGo false l

/-- JavaScript `String#trim`. -/
def jsTrim (l : List Char) : List Char :=
  ((l.dropWhile jsWs).reverse.dropWhile jsWs).reverse

/-- The content-cleaning chain of `generateIndexHTML` (code fences,
image syntax, inline code, headings, bold, italic, links, the character
class `[>\-\*\+]`, newline and whitespace collapsing, trim, first 100
characters), applied in source order. -/
def cleanContent (s : String) : String :=
  ⟨((((((((((stripCodeFences s.data
    |> stripImageSyntax)
    |> stripInlineCode)
    |> stripHeadings)
    |> stripBold)
    |> stripItalic)
    |> stripLinks)
    |> stripBullets)
    |> collapseNl)
    |> collapseWs)
    |> jsTrim).take 100⟩

/-- The content-cleaning chain of `generateSearchIndex` (code fences,
image syntax, HTML tags, whitespace collapsing, trim, first 300
characters), applied in source order. -/
def searchExcerpt (s : String) : String :=
  ⟨((((stripCodeFences s.data
    |> stripImageSyntax)
    |> stripHtmlTags)
    |> collapseWs)
    |> jsTrim).take 300⟩

/-! ## Template substitution (`renderTemplate`) -/

/-- Try to read a `{{key}}` token (`\{\{(\w+)\}\}`: two opening braces, a
nonempty greedy run of word characters, two closing braces) at the head
of the list, returning the key and the remainder. -/
def parseToken (l : List Char) : Option (String × List Char) :=
  match l with
  | o1 :: o2 :: rest =>
    if o1 = '\x7b' ∧ o2 = '\x7b' then
      if rest.takeWhile wordChar ≠ [] ∧
          (rest.drop (rest.takeWhile wordChar).length).take 2 = ['\x7d', '\x7d'] then
        some (⟨rest.takeWhile wordChar⟩, (rest.drop (rest.takeWhile wordChar).length).drop 2)
      else none
    else none
  | _ => none

/-- Worker for `renderTemplate`: single left-to-right pass; a replacement
value is emitted verbatim and never rescanned (JavaScript
`String#replace` with a global regular expression). -/
def renderTemplateGo (data : String → Option String) : Nat → List Char → List Char
  | 0, l => l
  | _ + 1, [] => []
  | fuel + 1, c :: cs =>
    match parseToken (c :: cs) with
    | some (k, rest) => ((data k).getD "").data ++ renderTemplateGo data fuel rest
    | none => c :: renderTemplateGo data fuel cs

/-- `renderTemplate` from `src/build.js`:
`template.replace(/\{\{(\w+)\}\}/g, (m, key) => data[key] || '')`.
Data is a partial map from keys to strings; a missing key substitutes the
empty string (the only falsy string is `''`, which also maps to `''`). -/
def renderTemplate (tpl : String) (data : String → Option String) : String :=
  ⟨renderTemplateGo data tpl.data.length tpl.data⟩

/-! ## The code renderer hook (`renderer.code`)

`highlight.js` is external; it is modelled as a record of its interface.
`highlight` returning `none` models the throwing case that the source
catches (`try … catch`), after which control falls through to the shared
escaped form. -/

/-- The interface of `highlight.js` used by the renderer. -/
structure Hljs where
  listLanguages : List String
  getLanguage : String → Bool
  highlight : String → String → Option String

/-- The copy-affordance attribute shared by both code-block emissions:
`data-code="${escapeHtml(code)}"` (the raw source, entity-escaped, for
the client-side copy button). -/
def dataCodeAttr (text : String) : String :=
  "data-code=\"" ++ escapeHtml text ++ "\""

/-- The `<code class="hljs language-L">…</code>` element holding the
highlighter's output (the "highlighted span structure"). -/
def hljsCodeElem (language value : String) : String :=
  "<code class=\"hljs language-" ++ language ++ "\">" ++ value ++ "</code>"

/-- The highlighted emission of `renderer.code` (the first template
literal; the concatenation below reproduces it byte for byte). -/
def highlightedBlock (language value text : String) : String :=
  ("<div class=\"code-block-wrapper\">\n          <pre data-language=\"" ++ language ++ "\">") ++
  hljsCodeElem language value ++
  ("</pre>\n          <button class=\"code-copy-btn\" " ++ dataCodeAttr text ++
   " aria-label=\"Copy code\">\n            <svg width=\"16\" height=\"16\" viewBox=\"0 0 24 24\" fill=\"none\" stroke=\"currentColor\" stroke-width=\"2\" stroke-linecap=\"round\" stroke-linejoin=\"round\">\n              <rect x=\"9\" y=\"9\" width=\"13\" height=\"13\" rx=\"2\" ry=\"2\"></rect>\n              <path d=\"M5 15H4a2 2 0 0 1-2-2V4a2 2 0 0 1 2-2h9a2 2 0 0 1 2 2v1\"></path>\n            </svg>\n            <span class=\"copy-text\">Copy</span>\n          </button>\n        </div>")

/-- The escaped emission of `renderer.code` (the second template literal;
`language || 'text'` and `language || ''` on the empty language). -/
def escapedBlock (language text : String) : String :=
  ("<div class=\"code-block-wrapper\">\n    <pre data-language=\"" ++
   (if language = "" then "text" else language) ++
   "\"><code class=\"language-" ++ language ++ "\">") ++
  escapeHtml text ++
  ("</code></pre>\n    <button class=\"code-copy-btn\" " ++ dataCodeAttr text ++
   " aria-label=\"Copy code\">\n      <svg width=\"16\" height=\"16\" viewBox=\"0 0 24 24\" fill=\"none\" stroke=\"currentColor\" stroke-width=\"2\" stroke-linecap=\"round\" stroke-linejoin=\"round\">\n        <rect x=\"9\" y=\"9\" width=\"13\" height=\"13\" rx=\"2\" ry=\"2\"></rect>\n        <path d=\"M5 15H4a2 2 0 0 1-2-2V4a2 2 0 0 1 2-2h9a2 2 0 0 1 2 2v1\"></path>\n      </svg>\n      <span class=\"copy-text\">Copy</span>\n    </button>\n  </div>")

/-- `renderer.code` from `src/build.js`: `language` is the fence tag
(empty when absent), `text` the raw code.  A token with a supported,
registered language is highlighted; a highlighting exception is caught
and falls through to the escaped form, as does any unsupported or
missing language. -/
def renderCode (h : Hljs) (language text : String) : String :=
  if language ≠ "" ∧ language ∈ h.listLanguages then
    if h.getLanguage language then
      match h.highlight language text with
      | some value => highlightedBlock language value text
      | none => escapedBlock language text
    else escapedBlock language text
  else escapedBlock language text

/-- The language recorded into `currentArticleLanguages` by
`renderer.code` for one fence, if any (added before highlighting is
attempted). -/
def recordedLanguage (h : Hljs) (language : String) : Option String :=
  if language ≠ "" ∧ language ∈ h.listLanguages then some language else none

/-! ## The image renderer hook (`renderer.image`) -/

/-- `/^(https?:)?\/\//.test(href)`: protocol-relative or explicit
`http(s)://` targets count as absolute for the renderer. -/
def absUrlTest (href : String) : Bool :=
  "//".data.isPrefixOf href.data || httpPrefix href.data

/-- Modelled from marked's default renderer (external library): the
fallback `new marked.Renderer().image(href, title, text)` emits the
target unchanged as the `src` attribute. -/
def defaultImage (href title text : String) : String :=
  "<img src=\"" ++ href ++ "\" alt=\"" ++ text ++ "\"" ++
    (if title ≠ "" then " title=\"" ++ title ++ "\"" else "") ++ ">"

/-- `renderer.image` from `src/build.js`; `ctx` is the URL of
`currentArticleForRenderer` (`none` when no article is being rendered). -/
def renderImage (ctx : Option String) (href title text : String) : String :=
  if ctx.isSome ∧ ¬ absUrlTest href then
    let imageName := if "./".data.isPrefixOf href.data then (⟨href.data.drop 2⟩ : String) else href
    let finalPath := pathJoin [ctx.getD "", imageName]
    "<img src=\"" ++ finalPath ++ "\" alt=\"" ++ text ++ "\"" ++
      (if title ≠ "" then " title=\"" ++ title ++ "\"" else "") ++ ">"
  else defaultImage href title text

/-! ## Frontmatter metadata (modelled `js-yaml` subset)

`js-yaml` is external.  The model covers the frontmatter shapes used by
this repository: top-level `key: value` lines with plain or double-quoted
scalars, unquoted `YYYY-MM-DD` dates (which `js-yaml`'s default schema
loads as timestamps), and flow-style string lists.  An empty or `null`
document loads as no value, after which the `Article` constructor's
property accesses throw. -/

/-- A frontmatter `date` value: a quoted string scalar, or an unquoted
ISO date that `js-yaml` turns into a timestamp. -/
inductive FmDate where
  | str (s : String)
  | ts (y m d : Int)
deriving DecidableEq, Repr

/-- The frontmatter keys consumed downstream (unknown keys are preserved
by `js-yaml` but ignored by every consumer, so they are not modelled). -/
structure Frontmatter where
  title : Option String := none
  date : Option FmDate := none
  description : Option String := none
  tags : Option (List String) := none
deriving DecidableEq, Repr

/-- Digits of a numeral, as an integer (JavaScript numeric coercion of a
digit string). -/
def digitsToInt (l : List Char) : Int :=
  l.foldl (fun n c => n * 10 + (Int.ofNat (c.toNat - 48))) 0

/-- `/^\d{2}-\d{2}-\d{4}$/`. -/
def ddmmyyyyTest (s : String) : Bool :=
  match s.data with
  | [a, b, h1, c, d, h2, e, f, g, h] =>
    h1 = '-' ∧ h2 = '-' ∧ [a, b, c, d, e, f, g, h].all Char.isDigit
  | _ => false

/-- An unquoted `YYYY-MM-DD` scalar (the `js-yaml` timestamp shape used
in this repository). -/
def isoDateTest (s : String) : Bool :=
  match s.data with
  | [a, b, c, d, h1, e, f, h2, g, h] =>
    h1 = '-' ∧ h2 = '-' ∧ [a, b, c, d, e, f, g, h].all Char.isDigit
  | _ => false

/-- Strip one layer of double quotes. -/
def stripQuotes (s : String) : String :=
  match s.data with
  | '"' :: rest =>
    if rest ≠ [] ∧ rest.getLast? = some '"' then ⟨rest.dropLast⟩ else s
  | _ => s

/-- Trim a scalar (YAML plain-scalar whitespace handling on one line). -/
def yTrim (s : String) : String := ⟨jsTrim s.data⟩

/-- Parse a flow list `[a, b, c]` of scalars. -/
def parseFlowList (s : String) : Option (List String) :=
  match s.data with
  | '[' :: rest =>
    if rest.getLast? = some ']' then
      let inner : String := ⟨rest.dropLast⟩
      if (jsTrim inner.data) = [] then some []
      else some ((jsSplit ',' inner).map fun x => stripQuotes (yTrim x))
    else none
  | _ => none

/-- Fold one `key: value` line into the metadata record. -/
def yamlLine (fm : Frontmatter) (line : String) : Frontmatter :=
  match jsSplit ':' line with
  | key :: rest@(_ :: _) =>
    let k := yTrim key
    let v := yTrim (String.intercalate ":" rest)
    if k = "title" then { fm with title := some (stripQuotes v) }
    else if k = "description" then { fm with description := some (stripQuotes v) }
    else if k = "date" then
      if v.data.head? = some '"' then { fm with date := some (.str (stripQuotes v)) }
      else if isoDateTest v then
        match jsSplit '-' v with
        | [y, m, d] => { fm with date := some (.ts (digitsToInt y.data) (digitsToInt m.data) (digitsToInt d.data)) }
        | _ => { fm with date := some (.str v) }
      else { fm with date := some (.str v) }
    else if k = "tags" then
      match parseFlowList v with
      | some xs => { fm with tags := some xs }
      | none => fm
    else fm
  | _ => fm

/-- Modelled from `js-yaml`'s documented behaviour (external library):
load the frontmatter block.  An empty or `null` document yields no value
(`undefined`/`null` in JavaScript); otherwise the `key: value` lines are
folded into a `Frontmatter`. -/
def yamlLoad (s : String) : Option Frontmatter :=
  let t := yTrim s
  if t = "" ∨ t = "null" ∨ t = "~" then none
  else some ((jsSplit '\n' s).foldl yamlLine {})

/-! ## The `Article` model -/

/-- The canonical in-memory article record (`class Article`). -/
structure Article where
  content : String
  title : String
  date : JSDate
  description : String
  tags : List String
  filePath : String
  languages : List String
  images : List String
  isProject : Bool
  projectName : Option String
  url : String
  readTime : Nat
deriving DecidableEq, Repr

/-- JavaScript `x || d` for an optional string (the only falsy string is
the empty one). -/
def jsOrStr (v : Option String) (d : String) : String :=
  match v with
  | none => d
  | some s => if s = "" then d else s

/-- Modelled `Date.parse` for the string dates this repository can feed
to `new Date(string)`: an ISO `YYYY-MM-DD` string denotes UTC midnight.
Other string formats are outside the modelled scope (no article uses
them) and map to the epoch. -/
def jsDateParse (s : String) : JSDate :=
  if isoDateTest s then
    match jsSplit '-' s with
    | [y, m, d] => dateFromYMD (digitsToInt y.data) (digitsToInt m.data) (digitsToInt d.data)
    | _ => ⟨0⟩
  else ⟨0⟩

/-- The date selection of the `Article` constructor:
`frontmatter.date || Date.now()`, then the `DD-MM-YYYY` branch
(`new Date(year, month - 1, day)`) or `new Date(dateInput)`. -/
def articleDate (fmDate : Option FmDate) (now : Int) : JSDate :=
  match fmDate with
  | none => ⟨now⟩
  | some (.ts y m d) => dateFromYMD y m d
  | some (.str s) =>
    if s = "" then ⟨now⟩
    else if ddmmyyyyTest s then
      match jsSplit '-' s with
      | [d, m, y] => dateFromYMD (digitsToInt y.data) (digitsToInt m.data) (digitsToInt d.data)
      | _ => jsDateParse s
    else jsDateParse s

/-- The `Article` constructor (`constructor(content, frontmatter,
filePath)`): titles default, dates parse, the `projects` path segment
classifies the article, the URL derives from the classification, and the
read time is `Math.ceil(wordCount / 200)` over whitespace-delimited
tokens.  `languages` and `images` start empty and are filled in by
`parseMarkdownFile`. -/
def mkArticle (content : String) (fm : Frontmatter) (filePath : String) (now : Int) : Article :=
  let date := articleDate fm.date now
  let pathParts := jsSplit '/' filePath
  let isProject := pathParts.contains "projects"
  let projectName := if isProject then pathParts.get? (pathParts.indexOf "projects" + 1) else none
  let fileName := basenameExt filePath ".md"
  let url :=
    if isProject then
      "/articles/projects/" ++ projectName.getD "undefined" ++ "/" ++ fileName
    else
      "/articles/" ++ toString date.getFullYear.toNat ++ "/" ++ fileName
  { content := content
    title := jsOrStr fm.title "Untitled"
    date := date
    description := jsOrStr fm.description ""
    tags := fm.tags.getD []
    filePath := filePath
    languages := []
    images := []
    isProject := isProject
    projectName := projectName
    url := url
    readTime := (wordCount content + 199) / 200 }

/-- `parseMarkdownFile` from `src/build.js`: match the frontmatter
regular expression (throwing `No frontmatter found` on failure), load
the metadata (property access on an empty document's `undefined` result
throws), build the article, then collect its relative image references
and the languages observed while rendering the body.  `collectLangs`
stands for the `marked.parse` side channel (`currentArticleLanguages`),
an external-renderer effect. -/
def parseMarkdownFile (collectLangs : String → List String) (filePath content : String)
    (now : Int) : Except String Article :=
  match matchFrontmatter content with
  | none => .error ("No frontmatter found in " ++ filePath)
  | some (fmText, body) =>
    match yamlLoad fmText with
    | none => .error ("TypeError: undefined is not an object in " ++ filePath)
    | some fm =>
      let a := mkArticle body fm filePath now
      .ok { a with images := collectImages body, languages := collectLangs body }

/-! ## Page composition -/

/-- The five templates loaded by `loadTemplates` (opaque text inputs). -/
structure Templates where
  layout : String
  index : String
  article : String
  projects : String
  notFound : String

/-- A finite substitution map in declaration order (the object literals
passed to `renderTemplate`). -/
def dataOf (l : List (String × String)) : String → Option String :=
  fun k => (l.find? (fun p => p.1 = k)).map (·.2)

/-- The `<span class="project-badge">` block, for a truthy project name. -/
def projectBadgeOf (p : Option String) : String :=
  match p with
  | some name => if name ≠ "" then "<span class=\"project-badge\">" ++ name ++ "</span>" else ""
  | none => ""

/-- The `<div class="tags-container">` block (empty when there are no
tags). -/
def tagsBlockOf (tags : List String) : String :=
  if tags.length > 0 then
    "<div class=\"tags-container\">" ++
      String.join (tags.map fun tag => "<span class=\"tag-badge\">" ++ tag ++ "</span>") ++
      "</div>"
  else ""

/-- `generateArticleHTML` from `src/build.js`.  `markedParse url content`
stands for `marked.parse` run with `currentArticleForRenderer` set to the
article (the hook only reads its `url`). -/
def generateArticleHTML (markedParse : String → String → String) (a : Article)
    (templates : Templates) (styles : String) : String :=
  let formattedDate := formatDateEuro a.date
  let htmlContent := markedParse a.url a.content
  let projectBadge := projectBadgeOf a.projectName
  let tagsBlock := tagsBlockOf a.tags
  let descriptionBlock :=
    if a.description ≠ "" then "<p class=\"article-description\">" ++ a.description ++ "</p>" else ""
  let articleContent := renderTemplate templates.article (dataOf
    [("title", a.title), ("content", htmlContent), ("date", formattedDate),
     ("readTime", toString a.readTime ++ " min read"), ("projectBadge", projectBadge),
     ("tagsBlock", tagsBlock), ("descriptionBlock", descriptionBlock)])
  renderTemplate templates.layout (dataOf
    [("title", a.title), ("description", a.description), ("content", articleContent),
     ("styles", styles)])

/-- The date-descending order used by `articles.sort((a, b) => b.date - a.date)`. -/
def byDateDesc (a b : Article) : Prop := b.date.ms ≤ a.date.ms

instance : DecidableRel byDateDesc := fun a b => inferInstanceAs (Decidable (b.date.ms ≤ a.date.ms))

/-- One summary card of the index page (the template literal of
`generateIndexHTML`, verbatim). -/
def indexCard (a : Article) : String :=
  "\n      <article class=\"article-card\"\n               data-title=\"" ++
  escapeAttr (toLowerJs a.title) ++
  "\"\n               data-content=\"" ++
  escapeAttr (toLowerJs (cleanContent a.content)) ++
  "\"\n               data-project=\"" ++
  escapeAttr (a.projectName.getD "") ++
  "\"\n               data-tags=\"" ++
  escapeAttr (toLowerJs (String.intercalate " " a.tags)) ++
  "\">\n        <div class=\"article-meta\">\n          <time datetime=\"" ++
  a.date.toISOString ++ "\">" ++ formatDateEuro a.date ++
  "</time>\n          <span class=\"meta-separator\">·</span>\n          <span class=\"read-time\">" ++
  toString a.readTime ++ " min read</span>\n          " ++
  (if a.isProject then "<span class=\"project-badge\">" ++ a.projectName.getD "undefined" ++ "</span>" else "") ++
  "\n        </div>\n        <h2><a href=\"" ++ a.url ++ "\">" ++ a.title ++
  "</a></h2>\n        <p class=\"article-description\">" ++ a.description ++
  "</p>\n        " ++ tagsBlockOf a.tags ++ "\n      </article>\n    "

/-- `generateIndexHTML` from `src/build.js`.  `articles.sort(...)` sorts
the caller's array **in place** (ECMAScript `Array#sort` is stable and
mutating), so the function returns both the page and the reordered array
that the caller's `articles` binding now holds; `List.insertionSort`
with `byDateDesc` computes exactly the stable date-descending
reordering. -/
def generateIndexHTML (articles : List Article) (templates : Templates) (styles : String) :
    String × List Article :=
  let sortedArticles := articles.insertionSort byDateDesc
  let articlesList := String.join (sortedArticles.map indexCard)
  let indexContent := renderTemplate templates.index (dataOf [("articles", articlesList)])
  let full := renderTemplate templates.layout (dataOf
    [("title", "Albert BF\x27s Blog"), ("description", "My personal minimalist technical blog"),
     ("content", indexContent), ("styles", styles)])
  (full, sortedArticles)

/-- Append an article to its project's bucket, preserving first-encounter
order of projects (the `Map` of `generateProjectsHTML`). -/
def addToGroup (groups : List (Option String × List Article)) (a : Article) :
    List (Option String × List Article) :=
  match groups with
  | [] => [(a.projectName, [a])]
  | (k, xs) :: rest =>
    if k = a.projectName then (k, xs ++ [a]) :: rest
    else (k, xs) :: addToGroup rest a

/-- Group the project articles by project name in insertion order. -/
def groupByProject (l : List Article) : List (Option String × List Article) :=
  l.foldl addToGroup []

/-- One `<li>` of the projects page (verbatim template literal). -/
def projectArticleLi (a : Article) : String :=
  "\n        <li class=\"project-article\">\n          <a href=\"" ++ a.url ++ "\">" ++ a.title ++
  "</a>\n          <div class=\"project-article-meta\">\n            <time datetime=\"" ++
  a.date.toISOString ++ "\">" ++ formatDateEuro a.date ++
  "</time>\n            <span class=\"meta-separator\">·</span>\n            <span class=\"read-time\">" ++
  toString a.readTime ++ " min read</span>\n          </div>\n        </li>\n      "

/-- `generateProjectsHTML` from `src/build.js`: filter the project
articles (a fresh array, so the shared set is not reordered here), group
them by project, sort each fresh group date-descending, and render. -/
def generateProjectsHTML (articles : List Article) (templates : Templates) (styles : String) :
    String :=
  let projectArticles := articles.filter (·.isProject)
  let groups := groupByProject projectArticles
  let projectsList := String.join (groups.map fun g =>
    let sorted := g.2.insertionSort byDateDesc
    let articlesList := String.join (sorted.map projectArticleLi)
    "\n      <div class=\"project-section minimal-card\">\n        <h2>" ++
      g.1.getD "undefined" ++
      "</h2>\n        <ul class=\"project-articles\">\n          " ++ articlesList ++
      "\n        </ul>\n      </div>\n    ")
  let projectsContent := renderTemplate templates.projects (dataOf [("projects", projectsList)])
  renderTemplate templates.layout (dataOf
    [("title", "Albert BF\x27s Projects"),
     ("description", "A collection of my projects and their related articles"),
     ("content", projectsContent), ("styles", styles)])

/-- `generate404HTML` from `src/build.js`. -/
def generate404HTML (templates : Templates) (styles : String) : String :=
  renderTemplate templates.layout (dataOf
    [("title", "404 - Not Found"),
     ("description", "The page you were looking for could not be found."),
     ("content", templates.notFound), ("styles", styles)])

/-! ## The search index -/

/-- One emitted search record (the object literal of
`generateSearchIndex`, fields in declaration order). -/
structure SearchRecord where
  title : String
  description : String
  url : String
  date : String
  readTime : Nat
  projectName : Option String
  content : String
  languages : List String
  tags : List String
deriving DecidableEq, Repr

/-- `generateSearchIndex` from `src/build.js`: one record per article of
the given collection, in its order. -/
def generateSearchIndex (articles : List Article) : List SearchRecord :=
  articles.map fun a =>
    { title := a.title
      description := a.description
      url := a.url
      date := a.date.toISOString
      readTime := a.readTime
      projectName := a.projectName
      content := searchExcerpt a.content
      languages := a.languages
      tags := a.tags }

/-- JSON string escaping (`JSON.stringify`) for the characters that can
occur in this pipeline's strings. -/
def jsonEscape (s : String) : String :=
  ⟨s.data.flatMap fun c =>
    if c = '"' then ['\\', '"']
    else if c = '\\' then ['\\', '\\']
    else if c = '\n' then ['\\', 'n']
    else if c = '\r' then ['\\', 'r']
    else if c = '\t' then ['\\', 't']
    else [c]⟩

/-- A JSON string literal. -/
def jsonStr (s : String) : String := "\"" ++ jsonEscape s ++ "\""

/-- A JSON array of strings at the given indentation
(`JSON.stringify(v, null, 2)` renders empty arrays as `[]`). -/
def jsonStrArray (indent : String) (xs : List String) : String :=
  if xs = [] then "[]"
  else "[\n" ++ String.intercalate ",\n" (xs.map fun x => indent ++ "  " ++ jsonStr x) ++
    "\n" ++ indent ++ "]"

/-- One search record as rendered by `JSON.stringify(searchIndex, null, 2)`
(`projectName` is `null` for non-project articles). -/
def searchRecordJson (r : SearchRecord) : String :=
  "\x7b\n    \"title\": " ++ jsonStr r.title ++
  ",\n    \"description\": " ++ jsonStr r.description ++
  ",\n    \"url\": " ++ jsonStr r.url ++
  ",\n    \"date\": " ++ jsonStr r.date ++
  ",\n    \"readTime\": " ++ toString r.readTime ++
  ",\n    \"projectName\": " ++ (match r.projectName with | some p => jsonStr p | none => "null") ++
  ",\n    \"content\": " ++ jsonStr r.content ++
  ",\n    \"languages\": " ++ jsonStrArray "    " r.languages ++
  ",\n    \"tags\": " ++ jsonStrArray "    " r.tags ++
  "\n  \x7d"

/-- `JSON.stringify(searchIndex, null, 2)`. -/
def searchIndexJson (rs : List SearchRecord) : String :=
  if rs = [] then "[]"
  else "[\n" ++ String.intercalate ",\n" (rs.map fun r => "  " ++ searchRecordJson r) ++ "\n]"

/-! ## The build pipeline -/

/-- The observable effect of one build: the files written (path, bytes)
in write order, and the image copy operations (source, destination). -/
structure BuildResult where
  files : List (String × String)
  copies : List (String × String)
deriving DecidableEq, Repr

/-- `./dist` (`DIST_DIR`). -/
def DIST_DIR : String := "./dist"

/-- `./src/images` (`IMAGES_DIR`). -/
def IMAGES_DIR : String := "./src/images"

/-- The parsing phase of `build`: every discovered file is parsed; the
first failure propagates (`process.exit(1)` in the per-file `catch`
aborts the whole build before any page is written). -/
def buildArticles (collectLangs : String → List String) (files : List (String × String))
    (now : Int) : Except String (List Article) :=
  files.mapM fun f => parseMarkdownFile collectLangs f.1 f.2 now

/-- The per-article write and copy operations of the `build` loop: the
page at `join(DIST_DIR, url.substring(1), 'index.html')` and one copy
per image reference, from next to the source file to the page's output
directory under the image's base name. -/
def articleOutputs (markedParse : String → String → String) (templates : Templates)
    (styles : String) (a : Article) : (String × String) × List (String × String) :=
  let html := generateArticleHTML markedParse a templates styles
  let outputPath := pathJoin [DIST_DIR, (⟨a.url.data.drop 1⟩ : String), "index.html"]
  let articleSrcDir := dirname a.filePath
  ((outputPath, html),
    a.images.map fun imagePath =>
      (pathJoin [articleSrcDir, imagePath], pathJoin [dirname outputPath, basename imagePath]))

/-- The page-generation and emission phase of `build` (everything after
the parsing loop): article pages with their image copies, the index
page, the projects page, the search index, the 404 page, and the global
image-directory copy, in write order. -/
def assembleBuild (markedParse : String → String → String) (templates : Templates)
    (styles : String) (articles : List Article) : BuildResult :=
  let pageOuts := articles.map (articleOutputs markedParse templates styles)
  let (indexHTML, articles2) := generateIndexHTML articles templates styles
  let projectsHTML := generateProjectsHTML articles2 templates styles
  let searchIndex := generateSearchIndex articles2
  let notFoundHTML := generate404HTML templates styles
  { files := pageOuts.map (·.1) ++
      [(pathJoin [DIST_DIR, "index.html"], indexHTML),
       (pathJoin [DIST_DIR, "projects", "index.html"], projectsHTML),
       (pathJoin [DIST_DIR, "search-index.json"], searchIndexJson searchIndex),
       (pathJoin [DIST_DIR, "404.html"], notFoundHTML)]
    copies := (pageOuts.map (·.2)).flatten ++ [(IMAGES_DIR, pathJoin [DIST_DIR, "images"])] }

/-- The whole `build` of `src/build.js`, as its effect on the output
tree: written files (path, bytes) in write order and image copy
operations (source, destination).  `now` is the build-time clock
(`Date.now()`); a parse failure yields `Except.error` (non-zero exit,
nothing written). -/
def build (markedParse : String → String → String) (collectLangs : String → List String)
    (files : List (String × String)) (templates : Templates) (styles : String) (now : Int) :
    Except String BuildResult := do
  let articles ← buildArticles collectLangs files now
  .ok (assembleBuild markedParse templates styles articles)

/-! ## Declarative properties used by the claim statements -/

/-- The frontmatter pattern, declaratively: the file text is an opening
`---` line (with trailing whitespace allowed), a metadata block, a
closing `---` line, and a remaining body — `^---\s*\n … \n---\s*\n …`
at the very start of the file. -/
def FMSplit (l : List Char) : Prop :=
  ∃ w1 A w2 B, (∀ c ∈ w1, jsWs c) ∧ (∀ c ∈ w2, jsWs c) ∧
    l = "---".data ++ w1 ++ ['\n'] ++ A ++ ['\n'] ++ "---".data ++ w2 ++ ['\n'] ++ B

/-- No two adjacent characters of the list contain `\x7b\x7b` (the
template-token opener): formalises the absence of any literal `{{…}}`
token. -/
def hasDoubleOpen : List Char → Bool
  | [] => false
  | [_] => false
  | a :: b :: t => if a = '\x7b' ∧ b = '\x7b' then true else hasDoubleOpen (b :: t)

/-- A template is well formed when every occurrence of two opening
braces begins a complete `{{word}}` token. -/
def wfTemplate : List Char → Bool
  | [] => true
  | c :: cs =>
    (if c = '\x7b' ∧ cs.head? = some '\x7b' then (parseToken (c :: cs)).isSome else true) &&
      wfTemplate cs

/-! ## Concrete fixtures for the claim instances -/

/-- Stand-in for `marked.parse` in concrete builds: the body is emitted
unchanged (the claims evaluated on these fixtures do not depend on the
Markdown-to-HTML translation itself). -/
def idRenderer : String → String → String := fun _ content => content

/-- Stand-in for the language side channel: no fenced blocks in the
fixture bodies. -/
def noLangs : String → List String := fun _ => []

/-- Minimal placeholder-bearing templates for concrete builds. -/
def tinyTemplates : Templates :=
  { layout := "L[\x7b\x7bcontent\x7d\x7d|\x7b\x7bstyles\x7d\x7d]"
    index := "IDX(\x7b\x7barticles\x7d\x7d)"
    article := "ART<\x7b\x7btitle\x7d\x7d;\x7b\x7bcontent\x7d\x7d;\x7b\x7bdate\x7d\x7d;\x7b\x7breadTime\x7d\x7d>"
    projects := "PRJ(\x7b\x7bprojects\x7d\x7d)"
    notFound := "NF" }

/-- A build instant: 2025-06-15T15:06:40Z. -/
def buildNow : Int := 1750000000000

/-- A project article dated far in the future (`01-01-2999`). -/
def fileFutureProj : String × String :=
  ("articles/projects/demo/gamma.md",
   "---\ntitle: GammaFuture\ndate: \"01-01-2999\"\n---\nFuture words")

/-- An article whose frontmatter has no `date` key. -/
def fileNoDate : String × String :=
  ("articles/2025/nodate.md", "---\ntitle: NoDate\n---\nBody text")

/-- The round-trip article of C8: a relative image reference. -/
def fileFoo : String × String :=
  ("articles/2025/foo.md", "---\ntitle: Foo\ndate: 2025-06-01\n---\n![alt](./pic.png)")

/-- The protocol-relative image article of C10. -/
def fileProto : String × String :=
  ("articles/2025/proto.md",
   "---\ntitle: Proto\ndate: 2025-01-01\n---\n![logo](//cdn.example.com/pic.png)")

/-- Two dated articles in ascending date order (for the in-place sort
observation). -/
def artOld : Article :=
  mkArticle "old body" { title := some "Old", date := some (.ts 2025 1 1) }
    "articles/2025/old.md" 0

/-- See `artOld`. -/
def artNew : Article :=
  mkArticle "new body" { title := some "New", date := some (.ts 2025 2 1) }
    "articles/2025/new.md" 0

/-- An article whose body starts with a Markdown heading. -/
def artHeading : Article :=
  mkArticle "# Hi\n\nSome text." { title := some "Hd", date := some (.ts 2025 1 15) }
    "articles/2025/hd.md" 0

/-- The bytes written to `p` by a successful build (empty string when
the build failed or wrote no such file). -/
def outFile (e : Except String BuildResult) (p : String) : String :=
  match e with
  | .ok r => ((r.files.find? (fun q => q.1 = p)).map (·.2)).getD ""
  | .error _ => ""

/-- Did the build succeed? -/
def buildOk (e : Except String BuildResult) : Bool :=
  e.toOption.isSome

/-- A small model of `highlight.js` for concrete instances: one
registered language whose highlighter wraps the code in a keyword span. -/
def hljsGo : Hljs :=
  { listLanguages := ["go"], getLanguage := fun l => l = "go",
    highlight := fun _ c => some ("<span class=\"hljs-keyword\">" ++ c ++ "</span>") }

/-- The day number of a successfully parsed article's publish date. -/
def parsedDay (e : Except String Article) : Int :=
  match e with
  | .ok a => a.date.dayNumber
  | .error _ => 0

/-- Does parsing this file text reach the `Date.now()` fallback?  True
exactly when the frontmatter parses to a mapping whose `date` is absent
(or the falsy empty string) — the only paths of the pipeline that
depend on the build clock. -/
def dateAbsent (content : String) : Bool :=
  match matchFrontmatter content with
  | none => false
  | some (fmText, _) =>
    match yamlLoad fmText with
    | none => false
    | some fm =>
      match fm.date with
      | none => true
      | some (.str s) => s = ""
      | some (.ts _ _ _) => false

instance {ε α : Type} [DecidableEq ε] [DecidableEq α] : DecidableEq (Except ε α) := fun a b =>
  match a, b with
  | .ok x, .ok y =>
    if h : x = y then isTrue (by rw [h]) else isFalse (by intro g; injection g; contradiction)
  | .error x, .error y =>
    if h : x = y then isTrue (by rw [h]) else isFalse (by intro g; injection g; contradiction)
  | .ok _, .error _ => isFalse (by intro g; exact Except.noConfusion g)
  | .error _, .ok _ => isFalse (by intro g; exact Except.noConfusion g)

instance : IsTotal Article byDateDesc :=
  ⟨fun a b => Int.le_total b.date.ms a.date.ms⟩

instance : IsTrans Article byDateDesc :=
  ⟨fun _ _ _ h1 h2 => le_trans h2 h1⟩

/-! ## Supporting lemmas -/

/-- `Math.ceil(n / 200)` on naturals agrees with the rational ceiling. -/
theorem ceil_div_200 (n : ℕ) : (n + 199) / 200 = ⌈(n : ℚ) / 200⌉₊ := by
  rcases Nat.eq_zero_or_pos n with h | h
  · subst h; norm_num
  · have h200 : (0 : ℚ) < 200 := by norm_num
    have hq := Nat.div_add_mod (n + 199) 200
    set q := (n + 199) / 200 with hqdef
    set r := (n + 199) % 200 with hrdef
    have hr : r < 200 := Nat.mod_lt _ (by norm_num)
    have hq1 : 1 ≤ q := by
      rw [hqdef]
      exact (Nat.one_le_div_iff (by norm_num)).mpr (by omega)
    symm
    rw [Nat.ceil_eq_iff (by omega)]
    constructor
    · rw [lt_div_iff₀ h200]
      have : ((q : ℤ) - 1) * 200 < n := by omega
      have hcast : ((q - 1 : ℕ) : ℚ) = (q : ℚ) - 1 := by
        push_cast [hq1]; ring
      rw [hcast]
      exact_mod_cast this
    · rw [div_le_iff₀ h200]
      have : (n : ℤ) ≤ q * 200 := by omega
      exact_mod_cast this

set_option maxRecDepth 16000

set_option maxHeartbeats 4000000

/-! ## Lemmas about the frontmatter matcher, the parsing loop, the
template scanner, and the code renderer -/

theorem wsNlCands_sound {l r : List Char} (h : r ∈ wsNlCands l) :
    ∃ w, (∀ c ∈ w, jsWs c) ∧ l = w ++ '\n' :: r := by
  rw [wsNlCands, List.mem_filterMap] at h
  obtain ⟨k, hk, hif⟩ := h
  split at hif
  · rename_i hcond
    injection hif with hr
    obtain ⟨hall, hget⟩ := hcond
    obtain ⟨hlt, hnl⟩ := List.getElem?_eq_some_iff.mp hget
    refine ⟨l.take k, ?_, ?_⟩
    · intro c hc
      exact List.all_eq_true.mp hall c hc
    · subst hr
      conv_lhs => rw [← List.take_append_drop k l]
      rw [List.drop_eq_getElem_cons hlt, hnl]
  · exact absurd hif (by simp)

theorem wsNlCands_complete {l r w : List Char} (hw : ∀ c ∈ w, jsWs c)
    (he : l = w ++ '\n' :: r) : r ∈ wsNlCands l := by
  rw [wsNlCands, List.mem_filterMap]
  refine ⟨w.length, ?_, ?_⟩
  · rw [List.mem_reverse, List.mem_range]
    subst he
    simp
    omega
  · rw [if_pos]
    · subst he
      congr 1
      rw [show w ++ '\n' :: r = (w ++ ['\n']) ++ r by simp]
      rw [show w.length + 1 = (w ++ ['\n']).length by simp]
      exact List.drop_left _ _
    · constructor
      · subst he
        rw [List.take_left]
        exact List.all_eq_true.mpr hw
      · subst he
        rw [List.getElem?_append_right (by omega)]
        simp

theorem findClose_sound {t : List Char} {A B : List Char} (h : findClose t = some (A, B)) :
    ∃ w, (∀ c ∈ w, jsWs c) ∧ t = A ++ '\n' :: ("---".data ++ (w ++ '\n' :: B)) := by
  induction t generalizing A B with
  | nil => exact absurd h (by simp [findClose])
  | cons c cs ih =>
    rw [findClose] at h
    split at h
    · rename_i hcond
      obtain ⟨hnl, hpre⟩ := hcond
      have hcs : cs = "---".data ++ cs.drop 3 := by
        obtain ⟨u, hu⟩ := List.isPrefixOf_iff_prefix.mp hpre
        rw [← hu, show (3 : Nat) = ("---".data).length from rfl, List.drop_left]
      cases hh : (wsNlCands (cs.drop 3)).head? with
      | some b =>
        rw [hh] at h
        simp only [Option.some.injEq, Prod.mk.injEq] at h
        obtain ⟨hA, hB⟩ := h
        subst hA
        subst hB
        obtain ⟨w, hw, hsplit⟩ := wsNlCands_sound (List.mem_of_mem_head? hh)
        refine ⟨w, hw, ?_⟩
        rw [hnl]
        simp only [List.nil_append]
        congr 1
        rw [hcs, hsplit]
      | none =>
        rw [hh] at h
        obtain ⟨p, hp, hmap⟩ := Option.map_eq_some'.mp h
        obtain ⟨w, hw, hsplit⟩ := ih (show findClose cs = some (p.1, p.2) from hp)
        have hA : c :: p.1 = A := congrArg Prod.fst hmap
        have hB : p.2 = B := congrArg Prod.snd hmap
        refine ⟨w, hw, ?_⟩
        rw [← hA, ← hB, List.cons_append, ← hsplit]
    · obtain ⟨p, hp, hmap⟩ := Option.map_eq_some'.mp h
      obtain ⟨w, hw, hsplit⟩ := ih (show findClose cs = some (p.1, p.2) from hp)
      have hA : c :: p.1 = A := congrArg Prod.fst hmap
      have hB : p.2 = B := congrArg Prod.snd hmap
      refine ⟨w, hw, ?_⟩
      rw [← hA, ← hB, List.cons_append, ← hsplit]

theorem findClose_complete {w A B : List Char} (hw : ∀ c ∈ w, jsWs c) :
    ∀ t, t = A ++ '\n' :: ("---".data ++ (w ++ '\n' :: B)) → (findClose t).isSome := by
  induction A with
  | nil =>
    intro t ht
    simp only [List.nil_append] at ht
    subst ht
    rw [findClose]
    rw [if_pos ⟨rfl, by simp [List.isPrefixOf_iff_prefix]⟩]
    have hmem : B ∈ wsNlCands (("---".data ++ (w ++ '\n' :: B)).drop 3) := by
      rw [show (3 : Nat) = ("---".data).length from rfl, List.drop_left]
      exact wsNlCands_complete hw rfl
    cases hh : (wsNlCands (("---".data ++ (w ++ '\n' :: B)).drop 3)).head? with
    | some b => simp [hh]
    | none =>
      rw [List.head?_eq_none_iff] at hh
      rw [hh] at hmem
      exact absurd hmem (by simp)
  | cons a A' ih =>
    intro t ht
    subst ht
    rw [List.cons_append, findClose]
    split
    · cases hh : (wsNlCands ((A' ++ '\n' :: ("---".data ++ (w ++ '\n' :: B))).drop 3)).head? with
      | some b => simp [hh]
      | none =>
        simp only [hh]
        rw [Option.isSome_map']
        exact ih _ rfl
    · rw [Option.isSome_map']
      exact ih _ rfl

theorem matchFrontmatter_some_iff (s : String) :
    (matchFrontmatter s).isSome ↔ FMSplit s.data := by
  constructor
  · intro h
    rw [matchFrontmatter] at h
    split at h
    case isFalse => exact absurd h (by simp)
    case isTrue hpre =>
      rw [Option.isSome_map'] at h
      obtain ⟨p, hp⟩ := Option.isSome_iff_exists.mp h
      obtain ⟨r, hr, hfc⟩ := List.exists_of_findSome?_eq_some hp
      obtain ⟨w1, hw1, hsplit1⟩ := wsNlCands_sound hr
      obtain ⟨w2, hw2, hsplit2⟩ := findClose_sound (show findClose r = some (p.1, p.2) from hfc)
      have hl : s.data = "---".data ++ s.data.drop 3 := by
        obtain ⟨u, hu⟩ := List.isPrefixOf_iff_prefix.mp hpre
        rw [← hu, show (3 : Nat) = ("---".data).length from rfl, List.drop_left]
      refine ⟨w1, p.1, w2, p.2, hw1, hw2, ?_⟩
      conv_lhs => rw [hl, hsplit1, hsplit2]
      simp
  · intro h
    obtain ⟨w1, A, w2, B, hw1, hw2, he⟩ := h
    rw [matchFrontmatter]
    rw [if_pos (by rw [he]; simp [List.isPrefixOf_iff_prefix])]
    rw [Option.isSome_map']
    have hdrop : s.data.drop 3 = w1 ++ '\n' :: (A ++ '\n' :: ("---".data ++ (w2 ++ '\n' :: B))) := by
      rw [he, show (3 : Nat) = ("---".data).length from rfl]
      rw [show "---".data ++ w1 ++ ['\n'] ++ A ++ ['\n'] ++ "---".data ++ w2 ++ ['\n'] ++ B =
        "---".data ++ (w1 ++ '\n' :: (A ++ '\n' :: ("---".data ++ (w2 ++ '\n' :: B)))) by simp]
      rw [List.drop_left]
    have hmem : (A ++ '\n' :: ("---".data ++ (w2 ++ '\n' :: B))) ∈ wsNlCands (s.data.drop 3) :=
      wsNlCands_complete hw1 hdrop
    have hfc := findClose_complete hw2 (A ++ '\n' :: ("---".data ++ (w2 ++ '\n' :: B))) rfl
    cases hfs : (wsNlCands (s.data.drop 3)).findSome? findClose with
    | some p => simp
    | none =>
      rw [List.findSome?_eq_none_iff] at hfs
      have := hfs _ hmem
      rw [this] at hfc
      exact absurd hfc (by simp)

theorem buildArticles_ok_mem {cl : String → List String} {files : List (String × String)}
    {now : Int} {articles : List Article} (h : buildArticles cl files now = .ok articles) :
    ∀ f ∈ files, ∃ a ∈ articles, parseMarkdownFile cl f.1 f.2 now = .ok a := by
  induction files generalizing articles with
  | nil =>
    intro f hf
    exact absurd hf (by simp)
  | cons g gs ih =>
    unfold buildArticles at h ih
    rw [List.mapM_cons] at h
    cases hg : parseMarkdownFile cl g.1 g.2 now with
    | error e => rw [hg] at h; exact Except.noConfusion h
    | ok a =>
      rw [hg] at h
      cases hgs : gs.mapM (fun f => parseMarkdownFile cl f.1 f.2 now) with
      | error e => rw [hgs] at h; exact Except.noConfusion h
      | ok as =>
        rw [hgs] at h
        have harts : articles = a :: as := by
          have h2 : Except.ok (ε := String) (a :: as) = Except.ok articles := h
          injection h2 with h3
          rw [h3]
        subst harts
        intro f hf
        rcases List.mem_cons.mp hf with hfg | hfgs
        · subst hfg
          exact ⟨a, by simp, hg⟩
        · obtain ⟨b, hb, hpb⟩ := ih hgs f hfgs
          exact ⟨b, by simp [hb], hpb⟩

theorem build_ok_inv {mp cl files tpls styles now r}
    (h : build mp cl files tpls styles now = .ok r) :
    ∃ arts, buildArticles cl files now = .ok arts := by
  unfold build at h
  cases hb : buildArticles cl files now with
  | error e => rw [hb] at h; exact Except.noConfusion h
  | ok arts => exact ⟨arts, rfl⟩

theorem build_ok_of {mp : String → String → String} {cl : String → List String}
    {files : List (String × String)} {now : Int} {articles : List Article}
    {tpls : Templates} {styles : String}
    (h : buildArticles cl files now = .ok articles) :
    build mp cl files tpls styles now = .ok (assembleBuild mp tpls styles articles) := by
  unfold build
  rw [h]
  rfl

theorem searchjson_mem (mp : String → String → String) (tpls : Templates) (styles : String)
    (articles : List Article) :
    (pathJoin [DIST_DIR, "search-index.json"],
      searchIndexJson (generateSearchIndex (articles.insertionSort byDateDesc))) ∈
      (assembleBuild mp tpls styles articles).files := by
  have h2 : (generateIndexHTML articles tpls styles).2 = articles.insertionSort byDateDesc := rfl
  unfold assembleBuild
  simp [h2]

theorem parse_clock_free {cl : String → List String} {path content : String} {now1 now2 : Int}
    (h : dateAbsent content = false) :
    parseMarkdownFile cl path content now1 = parseMarkdownFile cl path content now2 := by
  unfold dateAbsent at h
  unfold parseMarkdownFile
  rcases hm : matchFrontmatter content with _ | ⟨fmText, body⟩
  · rfl
  · rw [hm] at h
    dsimp only at h ⊢
    rcases hy : yamlLoad fmText with _ | fm
    · rfl
    · rw [hy] at h
      dsimp only at h ⊢
      have hd : articleDate fm.date now1 = articleDate fm.date now2 := by
        rcases hfd : fm.date with _ | d
        · rw [hfd] at h; simp at h
        · rcases d with s | ⟨y, m, dd⟩
          · rw [hfd] at h
            simp at h
            simp [articleDate, h]
          · rfl
      have hmk : mkArticle body fm path now1 = mkArticle body fm path now2 := by
        unfold mkArticle
        rw [hd]
      rw [hmk]

theorem parseToken_eq {l : List Char} {k : String} {rest : List Char}
    (h : parseToken l = some (k, rest)) :
    ∃ w, w ≠ [] ∧ (∀ c ∈ w, wordChar c) ∧
      l = '\x7b' :: '\x7b' :: (w ++ '\x7d' :: '\x7d' :: rest) ∧ k = (⟨w⟩ : String) := by
  match l with
  | [] => exact absurd h (by simp [parseToken])
  | [a] => exact absurd h (by simp [parseToken])
  | a :: b :: rest0 =>
    rw [parseToken] at h
    split at h
    · rename_i hbr
      obtain ⟨ha, hb⟩ := hbr
      split at h
      · rename_i hw
        obtain ⟨hne, htk⟩ := hw
        simp only [Option.some.injEq, Prod.mk.injEq] at h
        obtain ⟨hk, hrest⟩ := h
        refine ⟨rest0.takeWhile wordChar, hne, ?_, ?_, hk.symm⟩
        · intro c hc
          exact List.mem_takeWhile_imp hc
        · subst ha
          subst hb
          congr 1
          congr 1
          set t := rest0.takeWhile wordChar with ht
          set d := rest0.dropWhile wordChar with hd
          have hsplit : rest0 = t ++ d :=
            (List.takeWhile_append_dropWhile wordChar rest0).symm
          have hdw : rest0.drop t.length = d := by
            conv_lhs => rw [hsplit]
            exact List.drop_left _ _
          have hdw2 : d = '\x7d' :: '\x7d' :: rest := by
            rw [← hdw]
            have h2 := List.take_append_drop 2 (rest0.drop t.length)
            rw [htk] at h2
            rw [← h2, ← hrest]
            rfl
          conv_lhs => rw [hsplit, hdw2]
      · exact absurd h (by simp)
    · exact absurd h (by simp)

theorem wfTemplate_tail {c : Char} {cs : List Char} (h : wfTemplate (c :: cs) = true) :
    wfTemplate cs = true := by
  rw [wfTemplate, Bool.and_eq_true] at h
  exact h.2

theorem wfTemplate_drop {l : List Char} (h : wfTemplate l = true) :
    ∀ n, wfTemplate (l.drop n) = true := by
  induction l with
  | nil => intro n; simpa [List.drop_nil] using h
  | cons c cs ih =>
    intro n
    cases n with
    | zero => exact h
    | succ m => exact ih (wfTemplate_tail h) m

theorem hasDoubleOpen_append {xs ys : List Char} (hx : ∀ c ∈ xs, c ≠ '\x7b')
    (hy : hasDoubleOpen ys = false) : hasDoubleOpen (xs ++ ys) = false := by
  induction xs with
  | nil => simpa using hy
  | cons a xs' ih =>
    have ha : a ≠ '\x7b' := hx a (by simp)
    have ih' := ih (fun c hc => hx c (by simp [hc]))
    rw [List.cons_append]
    cases hxy : xs' ++ ys with
    | nil => rfl
    | cons b t =>
      rw [hasDoubleOpen]
      rw [if_neg (by intro hcon; exact ha hcon.1)]
      rw [← hxy]
      exact ih'

theorem renderTemplateGo_safe (data : String → Option String)
    (hdata : ∀ k, '\x7b' ∉ ((data k).getD "").data) :
    ∀ fuel (l : List Char), l.length ≤ fuel → wfTemplate l = true →
      hasDoubleOpen (renderTemplateGo data fuel l) = false ∧
      ((renderTemplateGo data fuel l).head? = some '\x7b' → l.head? = some '\x7b') := by
  intro fuel
  induction fuel with
  | zero =>
    intro l hl _
    have hnil : l = [] := by
      cases l with
      | nil => rfl
      | cons c cs => simp at hl
    subst hnil
    exact ⟨rfl, by intro h; exact h⟩
  | succ fuel ih =>
    intro l hl hwf
    cases l with
    | nil => exact ⟨rfl, by intro h; exact h⟩
    | cons c cs =>
      rw [renderTemplateGo]
      cases hpt : parseToken (c :: cs) with
      | some p =>
        obtain ⟨k, rest⟩ := p
        obtain ⟨w, hwne, hwc, hdecomp, hks⟩ := parseToken_eq hpt
        have hlens := congrArg List.length hdecomp
        simp at hlens
        have hlen : rest.length ≤ fuel := by
          simp at hl
          omega
        have hrest_drop : rest = (c :: cs).drop (w.length + 4) := by
          rw [hdecomp]
          rw [show '\x7b' :: '\x7b' :: (w ++ '\x7d' :: '\x7d' :: rest) =
            ('\x7b' :: '\x7b' :: (w ++ ['\x7d', '\x7d'])) ++ rest by simp]
          rw [show w.length + 4 = ('\x7b' :: '\x7b' :: (w ++ ['\x7d', '\x7d'])).length by simp]
          rw [List.drop_left]
        have hwfrest : wfTemplate rest = true := by
          rw [hrest_drop]
          exact wfTemplate_drop hwf _
        obtain ⟨hnd, hhd⟩ := ih rest hlen hwfrest
        have hc : c = '\x7b' := by
          have := congrArg List.head? hdecomp
          simpa using this
        constructor
        · exact hasDoubleOpen_append (fun ch hch hcon => hdata k (hcon ▸ hch)) hnd
        · intro _
          simp [hc]
      | none =>
        have hwfcs : wfTemplate cs = true := wfTemplate_tail hwf
        have hlcs : cs.length ≤ fuel := by simp at hl; omega
        obtain ⟨hnd, hhd⟩ := ih cs hlcs hwfcs
        constructor
        · cases hout : renderTemplateGo data fuel cs with
          | nil => rfl
          | cons b t =>
            rw [hasDoubleOpen]
            rw [if_neg ?side]
            · rw [← hout]; exact hnd
            case side =>
              intro hcon
              obtain ⟨hceq, hb⟩ := hcon
              have hcs : cs.head? = some '\x7b' := by
                apply hhd
                rw [hout, hb]
                rfl
              rw [wfTemplate, Bool.and_eq_true] at hwf
              have hw1 := hwf.1
              rw [if_pos ⟨hceq, hcs⟩] at hw1
              rw [hpt] at hw1
              exact absurd hw1 (by simp)
        · intro hh2
          have hceq : c = '\x7b' := by simpa using hh2
          simp [hceq]

theorem escapeHtml_no_angle (s : String) :
    '<' ∉ (escapeHtml s).data ∧ '>' ∉ (escapeHtml s).data := by
  constructor <;>
  · intro hmem
    rw [escapeHtml] at hmem
    simp only [List.mem_flatMap] at hmem
    obtain ⟨c, _, hc⟩ := hmem
    by_cases h1 : c = '&' <;> by_cases h2 : c = '<' <;> by_cases h3 : c = '>' <;>
      by_cases h4 : c = '"' <;> by_cases h5 : c = '\x27' <;>
      simp_all [escapeHtmlChar]
    all_goals exact absurd hc.symm (by assumption)

theorem highlightedBlock_dataCode (language value text : String) :
    ∃ p q, highlightedBlock language value text = p ++ dataCodeAttr text ++ q := by
  refine ⟨("<div class=\"code-block-wrapper\">\n          <pre data-language=\"" ++ language ++ "\">") ++
    hljsCodeElem language value ++ "</pre>\n          <button class=\"code-copy-btn\" ",
    " aria-label=\"Copy code\">\n            <svg width=\"16\" height=\"16\" viewBox=\"0 0 24 24\" fill=\"none\" stroke=\"currentColor\" stroke-width=\"2\" stroke-linecap=\"round\" stroke-linejoin=\"round\">\n              <rect x=\"9\" y=\"9\" width=\"13\" height=\"13\" rx=\"2\" ry=\"2\"></rect>\n              <path d=\"M5 15H4a2 2 0 0 1-2-2V4a2 2 0 0 1 2-2h9a2 2 0 0 1 2 2v1\"></path>\n            </svg>\n            <span class=\"copy-text\">Copy</span>\n          </button>\n        </div>", ?_⟩
  unfold highlightedBlock
  simp only [String.append_assoc]

theorem escapedBlock_dataCode (language text : String) :
    ∃ p q, escapedBlock language text = p ++ dataCodeAttr text ++ q := by
  refine ⟨("<div class=\"code-block-wrapper\">\n    <pre data-language=\"" ++
    (if language = "" then "text" else language) ++
    "\"><code class=\"language-" ++ language ++ "\">") ++
    escapeHtml text ++ "</code></pre>\n    <button class=\"code-copy-btn\" ",
    " aria-label=\"Copy code\">\n      <svg width=\"16\" height=\"16\" viewBox=\"0 0 24 24\" fill=\"none\" stroke=\"currentColor\" stroke-width=\"2\" stroke-linecap=\"round\" stroke-linejoin=\"round\">\n        <rect x=\"9\" y=\"9\" width=\"13\" height=\"13\" rx=\"2\" ry=\"2\"></rect>\n        <path d=\"M5 15H4a2 2 0 0 1-2-2V4a2 2 0 0 1 2-2h9a2 2 0 0 1 2 2v1\"></path>\n      </svg>\n      <span class=\"copy-text\">Copy</span>\n    </button>\n  </div>", ?_⟩
  unfold escapedBlock
  simp only [String.append_assoc]

/-! ## Claim theorems -/

/-- C1: the publication-date filter described by the specification does
not exist in `src/build.js`.  Building a single project article dated
`01-01-2999` at a 2025 build instant succeeds, its publish day is
strictly after the build day (the very condition under which the claim
requires absence), and yet its URL appears in the generated index page,
the project-grouping page, and the search index. -/
theorem future_article_included_everywhere :
    buildOk (build idRenderer noLangs [fileFutureProj] tinyTemplates "S" buildNow) = true ∧
    (JSDate.mk buildNow).dayNumber <
      parsedDay (parseMarkdownFile noLangs fileFutureProj.1 fileFutureProj.2 buildNow) ∧
    containsStr "/articles/projects/demo/gamma"
      (outFile (build idRenderer noLangs [fileFutureProj] tinyTemplates "S" buildNow)
        "dist/index.html") = true ∧
    containsStr "/articles/projects/demo/gamma"
      (outFile (build idRenderer noLangs [fileFutureProj] tinyTemplates "S" buildNow)
        "dist/projects/index.html") = true ∧
    containsStr "/articles/projects/demo/gamma"
      (outFile (build idRenderer noLangs [fileFutureProj] tinyTemplates "S" buildNow)
        "dist/search-index.json") = true := by
  decide

/-- C3 (counterexample): for an empty body the source computes
`Math.ceil(0 / 200) = 0`, so `readTimeMinutes` is `0`, not at least `1`
as the claim states. -/
theorem readTime_zero_on_empty_body :
    (mkArticle "" {} "articles/2025/empty.md" 0).readTime = 0 ∧ wordCount "" = 0 := by
  decide

/-- C3 (amended): for every article, `readTimeMinutes` equals
`ceil(wordCount / 200)` over the whitespace-delimited tokens of the raw
body, and it is at least `1` exactly when the body has at least one
token — for an empty (or all-whitespace) body it is `0`. -/
theorem readTime_ceil_formula (content : String) (fm : Frontmatter) (path : String) (now : Int) :
    (mkArticle content fm path now).readTime = ⌈(wordCount content : ℚ) / 200⌉₊ ∧
    (1 ≤ (mkArticle content fm path now).readTime ↔ 1 ≤ wordCount content) := by
  have hrt : (mkArticle content fm path now).readTime = (wordCount content + 199) / 200 := rfl
  constructor
  · rw [hrt]; exact ceil_div_200 (wordCount content)
  · rw [hrt, Nat.one_le_div_iff (by norm_num)]
    omega

/-- C4 (counterexample): `generateIndexHTML` sorts the shared `articles`
array in place; with two articles in ascending date order the set's
order after index generation is no longer the scanner's order, so page
composition does mutate the article set. -/
theorem index_generation_reorders_set :
    (generateIndexHTML [artOld, artNew] tinyTemplates "S").2 ≠ [artOld, artNew] ∧
    (generateIndexHTML [artOld, artNew] tinyTemplates "S").2 = [artNew, artOld] := by
  constructor
  · decide
  · decide

/-- C5 (counterexample): the search-index excerpt does not strip general
Markdown syntax — an article whose body is `# Hi\n\nSome text.` yields
the excerpt `# Hi Some text.`, which still begins with the Markdown
heading marker `# `, contrary to the claim's "Markdown syntax …
stripped". -/
theorem search_excerpt_keeps_heading_syntax :
    (generateSearchIndex [artHeading]).map (fun r => r.content) = ["# Hi Some text."] ∧
    "# ".data.isPrefixOf "# Hi Some text.".data = true ∧
    artHeading.content = "# Hi\n\nSome text." := by
  decide

/-- C5 (amended): for each article of the emitted collection, the search
record contains exactly its title, description, URL, ISO-8601 publish
timestamp, read time, project name, used-language list, tag list, and a
content excerpt in which code fences, image syntax and HTML tags are
stripped, whitespace is collapsed, and the result is truncated to at
most 300 characters (other Markdown syntax, such as heading or emphasis
markers, is preserved). -/
theorem search_record_fields (l : List Article) (a : Article) (h : a ∈ l) :
    ({ title := a.title, description := a.description, url := a.url,
       date := a.date.toISOString, readTime := a.readTime, projectName := a.projectName,
       content := searchExcerpt a.content, languages := a.languages,
       tags := a.tags } : SearchRecord) ∈ generateSearchIndex l ∧
    (searchExcerpt a.content).data.length ≤ 300 := by
  constructor
  · exact List.mem_map_of_mem _ h
  · exact List.length_take_le _ _

/-- Witness for `search_record_fields` at a concrete article. -/
theorem search_record_fields_witness :
    artHeading ∈ [artHeading] ∧
    ({ title := artHeading.title, description := artHeading.description, url := artHeading.url,
       date := artHeading.date.toISOString, readTime := artHeading.readTime,
       projectName := artHeading.projectName, content := searchExcerpt artHeading.content,
       languages := artHeading.languages,
       tags := artHeading.tags } : SearchRecord) ∈ generateSearchIndex [artHeading] ∧
    (searchExcerpt artHeading.content).data.length ≤ 300 := by
  refine ⟨by decide, ?_, ?_⟩
  · exact (search_record_fields [artHeading] artHeading (by decide)).1
  · exact (search_record_fields [artHeading] artHeading (by decide)).2

/-- C7 (counterexample): `renderTemplate` substitutes in a single pass
and never rescans a substituted value, so a value containing `{{b}}`
leaves that well-formed unresolved token literally in the output,
contrary to the claim that unresolved tokens never appear. -/
theorem template_token_survives_substitution :
    renderTemplate "\x7b\x7ba\x7d\x7d" (dataOf [("a", "\x7b\x7bb\x7d\x7d")]) = "\x7b\x7bb\x7d\x7d" ∧
    (parseToken "\x7b\x7bb\x7d\x7d".data).isSome = true := by
  decide

/-- C8: round-trip between rendering and asset copying.  Parsing the
article `articles/2025/foo.md` (dated 2025) with body
`![alt](./pic.png)` yields URL `/articles/2025/foo` and records the
image reference; the renderer rewrites the `<img>` `src` to
`/articles/2025/foo/pic.png`; and the build's copy step copies
`articles/2025/pic.png` to exactly `"dist" ++ "/articles/2025/foo/pic.png"`
— the same path under the output root that the page references.  An
absolute (`https://`) target passes through the renderer unchanged and
is not recorded for copying. -/
theorem image_roundtrip :
    ((parseMarkdownFile noLangs fileFoo.1 fileFoo.2 0).toOption.map
      fun a => (a.url, a.images)) = some ("/articles/2025/foo", ["./pic.png"]) ∧
    renderImage (some "/articles/2025/foo") "./pic.png" "" "alt" =
      "<img src=\"/articles/2025/foo/pic.png\" alt=\"alt\">" ∧
    ((parseMarkdownFile noLangs fileFoo.1 fileFoo.2 0).toOption.map
      fun a => (articleOutputs idRenderer tinyTemplates "S" a).2) =
      some [("articles/2025/pic.png", "dist" ++ "/articles/2025/foo/pic.png")] ∧
    renderImage (some "/articles/2025/foo") "https://cdn.example.com/pic.png" "" "alt" =
      defaultImage "https://cdn.example.com/pic.png" "" "alt" ∧
    collectImages "![alt](https://cdn.example.com/pic.png)" = [] := by
  decide

/-- C9 (counterexample): with an article whose frontmatter has no
`date`, two builds of identical sources at different clock instants both
succeed but write different bytes to `search-index.json` (the article's
date — and even its URL year — is the build instant). -/
theorem build_output_depends_on_clock :
    outFile (build idRenderer noLangs [fileNoDate] tinyTemplates "S" 0)
        "dist/search-index.json" ≠
      outFile (build idRenderer noLangs [fileNoDate] tinyTemplates "S" buildNow)
        "dist/search-index.json" ∧
    buildOk (build idRenderer noLangs [fileNoDate] tinyTemplates "S" 0) = true ∧
    buildOk (build idRenderer noLangs [fileNoDate] tinyTemplates "S" buildNow) = true := by
  decide

/-- C10: a protocol-relative image target (`//cdn.example.com/pic.png`)
is recorded by the frontmatter-parsing pass (its negative lookahead only
excludes `http://`/`https://`), the build then attempts a local copy for
it, while the renderer's `/^(https?:)?\/\//` test classifies the very
same target as absolute and emits the `src` unchanged. -/
theorem protocol_relative_image_divergence :
    collectImages "![logo](//cdn.example.com/pic.png)" = ["//cdn.example.com/pic.png"] ∧
    ((parseMarkdownFile noLangs fileProto.1 fileProto.2 0).toOption.map
      fun a => (a.images, (articleOutputs idRenderer tinyTemplates "S" a).2)) =
      some (["//cdn.example.com/pic.png"],
        [("articles/2025/cdn.example.com/pic.png", "dist/articles/2025/proto/pic.png")]) ∧
    renderImage (some "/articles/2025/proto") "//cdn.example.com/pic.png" "" "logo" =
      defaultImage "//cdn.example.com/pic.png" "" "logo" ∧
    absUrlTest "//cdn.example.com/pic.png" = true ∧
    httpPrefix "//cdn.example.com/pic.png".data = false := by
  decide

/-- C2 (counterexample): the file `---\n\n---\nbody` carries the leading
`---`-delimited pair at the very start (the declarative decomposition is
exhibited), yet `parseMarkdownFile` fails: the regular expression
captures an empty metadata block, `js-yaml` loads it as no value, and
the constructor's property access throws.  So "fails … exactly when the
pair is not found" is too strong. -/
theorem parse_fails_with_delimiters_present :
    FMSplit ("---\n\n---\nbody").data ∧
    (parseMarkdownFile noLangs "articles/2025/e.md" "---\n\n---\nbody" 0).toOption = none := by
  constructor
  · refine ⟨[], [], [], "body".data, ?_, ?_, ?_⟩
    · intro c hc; exact absurd hc (by simp)
    · intro c hc; exact absurd hc (by simp)
    · decide
  · decide

/-- C2 (amended): the frontmatter match succeeds exactly when the
leading delimiter pair is present at the very start of the file (the
regular expression's match is characterised by the declarative
decomposition `FMSplit`); when it is absent, `parseMarkdownFile` throws
`No frontmatter found`; any file whose parse fails aborts the whole
build (no `Except.ok` result, hence a non-zero exit with no output); and
on a successful build every discovered file contributes an article — no
article is silently skipped.  (Parsing can additionally fail when the
delimiters are present but the metadata block loads as no value.) -/
theorem frontmatter_failure_fail_fast :
    (∀ s : String, (matchFrontmatter s).isSome ↔ FMSplit s.data) ∧
    (∀ (cl : String → List String) (path content : String) (now : Int),
      matchFrontmatter content = none →
      parseMarkdownFile cl path content now = .error ("No frontmatter found in " ++ path)) ∧
    (∀ (mp : String → String → String) (cl : String → List String)
       (files : List (String × String)) (tpls : Templates) (styles : String) (now : Int)
       (f : String × String), f ∈ files →
       (∀ a : Article, parseMarkdownFile cl f.1 f.2 now ≠ .ok a) →
       ∀ r : BuildResult, build mp cl files tpls styles now ≠ .ok r) ∧
    (∀ (cl : String → List String) (files : List (String × String)) (now : Int)
       (articles : List Article), buildArticles cl files now = .ok articles →
       ∀ f ∈ files, ∃ a ∈ articles, parseMarkdownFile cl f.1 f.2 now = .ok a) := by
  refine ⟨matchFrontmatter_some_iff, ?_, ?_, ?_⟩
  · intro cl path content now h
    unfold parseMarkdownFile
    rw [h]
  · intro mp cl files tpls styles now f hf hne r hok
    obtain ⟨arts, harts⟩ := build_ok_inv hok
    obtain ⟨a, _, hpa⟩ := buildArticles_ok_mem harts f hf
    exact hne a hpa
  · intro cl files now articles h
    exact buildArticles_ok_mem h

/-- Witness for `frontmatter_failure_fail_fast` at concrete inputs. -/
theorem frontmatter_failure_fail_fast_witness :
    ((matchFrontmatter "no frontmatter").isSome ↔ FMSplit ("no frontmatter").data) ∧
    parseMarkdownFile noLangs "articles/x.md" "no frontmatter" 0 =
      .error ("No frontmatter found in " ++ "articles/x.md") ∧
    (∀ r : BuildResult,
      build idRenderer noLangs [("articles/x.md", "no frontmatter")] tinyTemplates "S" 0 ≠
        .ok r) ∧
    (∀ f ∈ [fileNoDate],
      ∃ a ∈ (buildArticles noLangs [fileNoDate] 0).toOption.getD [],
        parseMarkdownFile noLangs f.1 f.2 0 = .ok a) := by
  refine ⟨frontmatter_failure_fail_fast.1 _,
    frontmatter_failure_fail_fast.2.1 _ _ _ _ (by decide), ?_,
    frontmatter_failure_fail_fast.2.2.2 _ _ _ _ (by decide)⟩
  intro r
  refine frontmatter_failure_fail_fast.2.2.1 idRenderer noLangs _ tinyTemplates "S" 0
    ("articles/x.md", "no frontmatter") (by decide) ?_ r
  intro a ha
  rw [show parseMarkdownFile noLangs "articles/x.md" "no frontmatter" 0 =
    .error ("No frontmatter found in " ++ "articles/x.md") from by decide] at ha
  exact Except.noConfusion ha

/-- C4 (amended): `generateIndexHTML` does reorder the shared article
array — in place, via `Array#sort` — but that is the only mutation: the
resulting list is exactly a permutation of the scanner's set, sorted
stably by publish date descending, and the later stages (projects page,
search index) consume this reordered set — in particular the emitted
search index is built from the date-descending order, not the scan
order. -/
theorem index_sort_perm_sorted :
    ∀ (l : List Article) (tpls : Templates) (styles : String),
      ((generateIndexHTML l tpls styles).2).Perm l ∧
      List.Sorted byDateDesc (generateIndexHTML l tpls styles).2 ∧
      (∀ (mp : String → String → String) (cl : String → List String)
        (files : List (String × String)) (now : Int) (articles : List Article),
        buildArticles cl files now = .ok articles →
        build mp cl files tpls styles now = .ok (assembleBuild mp tpls styles articles) ∧
        (pathJoin [DIST_DIR, "search-index.json"],
          searchIndexJson (generateSearchIndex (articles.insertionSort byDateDesc))) ∈
          (assembleBuild mp tpls styles articles).files) := by
  intro l tpls styles
  have h2 : (generateIndexHTML l tpls styles).2 = l.insertionSort byDateDesc := rfl
  refine ⟨?_, ?_, ?_⟩
  · rw [h2]; exact List.perm_insertionSort _ _
  · rw [h2]; exact List.sorted_insertionSort _ _
  · intro mp cl files now articles h
    exact ⟨build_ok_of h, searchjson_mem mp tpls styles articles⟩

/-- Witness for `index_sort_perm_sorted` at concrete inputs. -/
theorem index_sort_perm_sorted_witness :
    ((generateIndexHTML [artOld, artNew] tinyTemplates "S").2).Perm [artOld, artNew] ∧
    List.Sorted byDateDesc (generateIndexHTML [artOld, artNew] tinyTemplates "S").2 ∧
    (build idRenderer noLangs [fileNoDate] tinyTemplates "S" 0 =
        .ok (assembleBuild idRenderer tinyTemplates "S"
          ((buildArticles noLangs [fileNoDate] 0).toOption.getD [])) ∧
      (pathJoin [DIST_DIR, "search-index.json"],
        searchIndexJson (generateSearchIndex
          (((buildArticles noLangs [fileNoDate] 0).toOption.getD []).insertionSort byDateDesc))) ∈
        (assembleBuild idRenderer tinyTemplates "S"
          ((buildArticles noLangs [fileNoDate] 0).toOption.getD [])).files) := by
  refine ⟨(index_sort_perm_sorted [artOld, artNew] tinyTemplates "S").1,
    (index_sort_perm_sorted [artOld, artNew] tinyTemplates "S").2.1,
    (index_sort_perm_sorted [] tinyTemplates "S").2.2 idRenderer noLangs [fileNoDate] 0 _
      (by decide)⟩

/-- C6: for a fenced block whose language is in the supported set (with
`highlight.js` coherent: every listed language is registered) and whose
highlighting succeeds, the emitted block contains the highlighted
`<code class="hljs language-L">` span structure; for every other block —
unsupported or missing language, or a highlighting exception — the
emitted block is the escaped form of the same wrapper shape; both carry
the copy-affordance `data-code` marker with the entity-escaped source;
and the escaped code contains no `<` or `>`, hence no active markup.
Highlighting failure yields the fallback, never an error, so it cannot
abort the build. -/
theorem code_fence_rendering (h : Hljs) (language text : String)
    (hcoh : ∀ L ∈ h.listLanguages, h.getLanguage L = true) :
    (∀ value, language ≠ "" → language ∈ h.listLanguages →
      h.highlight language text = some value →
      ∃ p q, renderCode h language text = p ++ hljsCodeElem language value ++ q) ∧
    (¬(language ≠ "" ∧ language ∈ h.listLanguages) →
      renderCode h language text = escapedBlock language text) ∧
    (h.highlight language text = none →
      renderCode h language text = escapedBlock language text) ∧
    (∃ p q, renderCode h language text = p ++ dataCodeAttr text ++ q) ∧
    '<' ∉ (escapeHtml text).data ∧ '>' ∉ (escapeHtml text).data := by
  refine ⟨?_, ?_, ?_, ?_, escapeHtml_no_angle text⟩
  · intro value hne hmem hv
    unfold renderCode
    rw [if_pos ⟨hne, hmem⟩, if_pos (hcoh language hmem), hv]
    exact ⟨_, _, rfl⟩
  · intro hn
    unfold renderCode
    rw [if_neg hn]
  · intro hnone
    unfold renderCode
    by_cases hsup : language ≠ "" ∧ language ∈ h.listLanguages
    · rw [if_pos hsup]
      by_cases hg : h.getLanguage language = true
      · rw [if_pos hg, hnone]
      · rw [if_neg hg]
    · rw [if_neg hsup]
  · unfold renderCode
    by_cases hsup : language ≠ "" ∧ language ∈ h.listLanguages
    · rw [if_pos hsup]
      by_cases hg : h.getLanguage language = true
      · rw [if_pos hg]
        cases hv : h.highlight language text with
        | some value => exact highlightedBlock_dataCode language value text
        | none => exact escapedBlock_dataCode language text
      · rw [if_neg hg]
        exact escapedBlock_dataCode language text
    · rw [if_neg hsup]
      exact escapedBlock_dataCode language text

/-- Witness for `code_fence_rendering` at a concrete highlighter. -/
theorem code_fence_rendering_witness :
    (∀ L ∈ hljsGo.listLanguages, hljsGo.getLanguage L = true) ∧
    ((∀ value, "go" ≠ "" → "go" ∈ hljsGo.listLanguages →
      hljsGo.highlight "go" "x < 1" = some value →
      ∃ p q, renderCode hljsGo "go" "x < 1" = p ++ hljsCodeElem "go" value ++ q) ∧
    (¬("go" ≠ "" ∧ "go" ∈ hljsGo.listLanguages) →
      renderCode hljsGo "go" "x < 1" = escapedBlock "go" "x < 1") ∧
    (hljsGo.highlight "go" "x < 1" = none →
      renderCode hljsGo "go" "x < 1" = escapedBlock "go" "x < 1") ∧
    (∃ p q, renderCode hljsGo "go" "x < 1" = p ++ dataCodeAttr "x < 1" ++ q) ∧
    '<' ∉ (escapeHtml "x < 1").data ∧ '>' ∉ (escapeHtml "x < 1").data) := by
  exact ⟨by decide, code_fence_rendering hljsGo "go" "x < 1" (by decide)⟩

/-- C7 (amended): `renderTemplate` replaces, in one left-to-right pass,
every `{{key}}` token of the template by the provided value (or the
empty string); substituted values are never rescanned.  Consequently
unresolved `{{…}}` tokens are absent from the output provided the
substituted values contain no opening brace and every `{{` of the
template opens a well-formed `{{word}}` token — without those provisos a
token can appear literally (see the counterexample). -/
theorem template_tokens_resolved (tpl : String) (data : String → Option String)
    (hwf : wfTemplate tpl.data = true)
    (hdata : ∀ k, '\x7b' ∉ ((data k).getD "").data) :
    hasDoubleOpen (renderTemplate tpl data).data = false := by
  exact (renderTemplateGo_safe data hdata tpl.data.length tpl.data le_rfl hwf).1

/-- Witness for `template_tokens_resolved` at a concrete template. -/
theorem template_tokens_resolved_witness :
    wfTemplate ("a\x7b\x7bx\x7d\x7db").data = true ∧
    hasDoubleOpen (renderTemplate "a\x7b\x7bx\x7d\x7db" (dataOf [("x", "V")])).data = false ∧
    renderTemplate "a\x7b\x7bx\x7d\x7db" (dataOf [("x", "V")]) = "aVb" := by
  refine ⟨by decide, ?_, by decide⟩
  apply template_tokens_resolved
  · decide
  · intro k
    rcases hk : ([("x", "V")].find? fun p => p.1 = k) with _ | p
    · simp [dataOf, hk]
    · have hp : p ∈ [("x", "V")] := List.mem_of_find?_eq_some hk
      have hpv : p = ("x", "V") := by simpa using hp
      subst hpv
      simp [dataOf, hk]

/-- C9 (amended): when every discovered file's frontmatter carries a
date (so the `Date.now()` fallback is never taken), the build's output
is independent of the build clock — two runs on identical sources,
templates, and stylesheet produce byte-identical files and copy
operations. -/
theorem build_deterministic_with_dates (mp : String → String → String)
    (cl : String → List String) (files : List (String × String)) (tpls : Templates)
    (styles : String) (now1 now2 : Int)
    (h : ∀ f ∈ files, dateAbsent f.2 = false) :
    build mp cl files tpls styles now1 = build mp cl files tpls styles now2 := by
  have hb : buildArticles cl files now1 = buildArticles cl files now2 := by
    unfold buildArticles
    induction files with
    | nil => rfl
    | cons f fs ih =>
      rw [List.mapM_cons, List.mapM_cons]
      rw [parse_clock_free (h f (by simp))]
      rw [ih (fun g hg => h g (by simp [hg]))]
  unfold build
  rw [hb]

/-- Witness for `build_deterministic_with_dates` at concrete inputs. -/
theorem build_deterministic_with_dates_witness :
    (∀ f ∈ [fileFutureProj], dateAbsent f.2 = false) ∧
    build idRenderer noLangs [fileFutureProj] tinyTemplates "S" 0 =
      build idRenderer noLangs [fileFutureProj] tinyTemplates "S" buildNow := by
  exact ⟨by decide,
    build_deterministic_with_dates idRenderer noLangs [fileFutureProj] tinyTemplates "S" 0
      buildNow (by decide)⟩

end Albertbf
